import Mathlib

/-!
Verification development for the PDF → positioned-HTML renderer of this
repository (`src/pdf_to_html.py`) and its file-writing call sites
(`main` in `src/pdf_to_html.py`, `save_html_to_uploads` in `src/api/utils.py`).

The Python code is shallowly embedded: the per-page data handed over by the
PDF library (text dictionary, page image list, image-info query, raw content
dictionary) is modelled as explicit input data; the library's pixmap calls
are modelled as an environment of fallible operations (`Except Unit`);
Python floats are idealised as rationals; formatting `%.2f` / `%.3f` is
implemented over rationals with round-half-to-even.  Python dictionaries are
modelled as insertion-ordered association lists with the usual first-match
lookup and in-place update.
-/

/-- Left-biased choice on `Option`: the first operand when it is `some`,
otherwise the second.  Mirrors "a value set later overrides an earlier one"
when the first operand is the later pass. -/
def oor {α : Type} : Option α → Option α → Option α
  | some v, _ => some v
  | none, b => b

/-- Substring test, Python's `needle in haystack` on `str`. -/
def contains_sub (needle haystack : String) : Bool :=
  decide (needle.toList <:+: haystack.toList)

/-- Python `str.upper` over the character list (the source only compares
ASCII colorspace names). -/
def str_upper (s : String) : String := String.mk (s.toList.map Char.toUpper)

/-- Python `str.lower` over the character list. -/
def str_lower (s : String) : String := String.mk (s.toList.map Char.toLower)

/-- Case-insensitive substring test (used to state the spec's
"contains `CMYK` or `ICC` (substring, case-insensitive)"). -/
def ci_contains (needle haystack : String) : Bool :=
  contains_sub (str_upper needle) (str_upper haystack)

/-- Python truthiness of an `Optional[int]`: `None` and `0` are falsy. -/
def py_truthy : Option Int → Bool
  | none => false
  | some v => decide (v ≠ 0)

/-- Expansion of one character under Python's `html.escape`
(`quote=False` leaves `"` and the apostrophe untouched). -/
def esc_char (quote : Bool) (c : Char) : List Char :=
  if c = '&' then ['&', 'a', 'm', 'p', ';']
  else if c = '<' then ['&', 'l', 't', ';']
  else if c = '>' then ['&', 'g', 't', ';']
  else if quote ∧ c = '"' then ['&', 'q', 'u', 'o', 't', ';']
  else if quote ∧ c = Char.ofNat 39 then ['&', '#', 'x', '2', '7', ';']
  else [c]

/-- Python `html.escape`: sequentially replaces `&`, `<`, `>` and, with
`quote=True`, the two quote characters; equivalent to the per-character
expansion because `&` is replaced first. -/
def html_escape (quote : Bool) (s : String) : String :=
  String.mk (s.toList.flatMap (esc_char quote))

/-- Python `t.replace("\r", "")`: drop every carriage return. -/
def strip_cr (t : String) : String :=
  String.mk (t.toList.filter fun c => decide (c ≠ Char.ofNat 13))

/-- Embedding of `_sanitize_text` (pdf_to_html.py lines 55-57): strip
carriage returns, then escape `&<>` while preserving quotes. -/
def sanitize_text (t : String) : String :=
  html_escape false (strip_cr t)

/-- Nearest integer with ties to even, the rounding used by Python's fixed
point formatting (over the rational idealisation of floats). -/
def round_half_even (q : ℚ) : ℤ :=
  let f := ⌊q⌋
  if q - f < 1 / 2 then f
  else if 1 / 2 < q - f then f + 1
  else if f % 2 = 0 then f else f + 1

/-- Zero-pad a digit string on the left to length `n`. -/
def pad_zeros (n : Nat) (s : String) : String :=
  String.mk (List.replicate (n - s.length) '0') ++ s

/-- Python `f"{q:.nd f}"` over the rational idealisation of floats:
round `q·10^nd` half-to-even and print with `nd` digits after the point
(the sign is taken from `q`, so `-0.001` at two digits prints `-0.00`). -/
def fmt_fixed (nd : Nat) (q : ℚ) : String :=
  let m := round_half_even (q * (10 : ℚ) ^ nd)
  let den : Nat := 10 ^ nd
  let n := m.natAbs
  (if q < 0 then "-" else "") ++ toString (n / den) ++ "." ++ pad_zeros nd (toString (n % den))

/-- Two-digit fixed formatting, Python `:.2f`. -/
def fmt2 (q : ℚ) : String := fmt_fixed 2 q

/-- Three-digit fixed formatting, Python `:.3f`. -/
def fmt3 (q : ℚ) : String := fmt_fixed 3 q

/-- Embedding of `_int_rgb_to_css` (pdf_to_html.py lines 43-47). -/
def int_rgb_to_css (c : Nat) : String :=
  "rgb(" ++ toString ((c >>> 16) &&& 255) ++ "," ++ toString ((c >>> 8) &&& 255) ++ ","
    ++ toString (c &&& 255) ++ ")"

/-- Embedding of `_detect_bold_italic` (pdf_to_html.py lines 49-53). -/
def detect_bold_italic (font_name : String) : Bool × Bool :=
  let name := str_lower font_name
  (["bold", "semibold", "demi", "black", "heavy"].any fun k => contains_sub k name,
   ["italic", "oblique", "ital"].any fun k => contains_sub k name)

/-- Abstract PyMuPDF pixmap: component count `n` (alpha included), the alpha
flag, the colorspace channel count (`none` models `colorspace is None`), and
an opaque content tag standing for the pixel payload. -/
structure Pix where
  n : Nat
  alpha : Bool
  csN : Option Nat
  data : Nat
deriving DecidableEq

/-- Modelled from the spec: `fitz.Pixmap(fitz.csRGB, p)`.  PyMuPDF is not
part of this repository; following the spec's description of the extraction
path ("convert the result to a 3-channel RGB representation … flatten it
onto an opaque RGB image (composite over white)"), conversion to RGB yields
an opaque 3-channel pixmap. -/
def convert_rgb (p : Pix) : Pix :=
  { n := 3, alpha := false, csN := some 3, data := p.data }

/-- Modelled from the spec: `fitz.Pixmap(fitz.csGRAY, p)` — "force it to
single-channel grayscale"; the alpha flag is unchanged. -/
def convert_gray (p : Pix) : Pix :=
  { n := if p.alpha then 2 else 1, alpha := p.alpha, csN := some 1, data := p.data }

/-- Fallible PyMuPDF operations of one open document.  `loadPix x` models
`fitz.Pixmap(doc, x)`, `addMask b m` models `fitz.Pixmap(b, m)` (attaching a
mask as alpha, with an arbitrary result pixmap), `pngB64 p` models the
base64 payload of `p.tobytes("png")`.  An `Except.error` models a raised
exception. -/
structure FitzEnv where
  loadPix : Int → Except Unit Pix
  addMask : Pix → Pix → Except Unit Pix
  pngB64 : Pix → String

/-- Embedding of `_png_dataurl_from_pixmap` (pdf_to_html.py lines 59-61). -/
def png_dataurl (env : FitzEnv) (p : Pix) : String :=
  "data:image/png;base64," ++ env.pngB64 p

/-- Embedding of `_pixmap_from_xref_safely` (pdf_to_html.py lines 65-96):
load the base pixmap (any exception gives `none`), optionally attach the
soft mask when the base has no alpha (exceptions here are swallowed and the
base kept), convert to RGB when not already 3-channel, and flatten any
remaining alpha.  The `mask_xref` parameter is accepted and never read,
exactly as in the source. -/
def pixmap_from_xref_safely (env : FitzEnv) (xref : Int)
    (smask_xref mask_xref : Option Int) : Option Pix :=
  match env.loadPix xref with
  | .error _ => none
  | .ok base0 =>
    let base1 :=
      match smask_xref with
      | some sx =>
        if sx ≠ 0 ∧ base0.alpha = false then
          match env.loadPix sx with
          | .error _ => base0
          | .ok sm0 =>
            let sm := if sm0.n ≠ 1 then convert_gray sm0 else sm0
            match env.addMask base0 sm with
            | .error _ => base0
            | .ok b => b
        else base0
      | none => base0
    let base2 := if ¬ (base1.csN = some 3) then convert_rgb base1 else base1
    let base3 := if base2.alpha then convert_rgb base2 else base2
    some base3

/-- Bounding box `(x0, y0, x1, y1)` in point-space. -/
abbrev BBox := ℚ × ℚ × ℚ × ℚ

/-- Embedding of `_render_clip` (pdf_to_html.py lines 161-173): `clipf`
models `page.get_pixmap(matrix=Matrix(os, os), clip=rect, alpha=False)` of
the page being rendered; a raised exception (`Except.error`) propagates.
The result is converted to RGB when it is not already 3-channel or still
carries alpha. -/
def render_clip_px (clipf : BBox → ℚ → Except Unit Pix) (bbox_pt : BBox)
    (oversample : ℚ) : Except Unit Pix :=
  match clipf bbox_pt oversample with
  | .error e => .error e
  | .ok pix => .ok (if ¬ (pix.csN = some 3) ∨ pix.alpha then convert_rgb pix else pix)

/-- One tuple of `page.get_images(full=True)`: `img[0]` (xref), `img[1]`
(smask, `0` when the tuple is short or there is none) and `img[5]` (the
colorspace name, `none` when the tuple is shorter). -/
structure ImgEntry where
  xref : Int
  smask : Int
  cs : Option String
deriving DecidableEq

/-- One record of `page.get_image_info(xrefs=True)`: `xref` is `none` when
the key is absent or not an int; `smask`/`mask` use `0` for absent (Python
truthiness treats both alike). -/
structure InfoRec where
  xref : Option Int
  bbox : Option BBox
  smask : Int
  mask : Int
deriving DecidableEq

/-- One block of `page.get_text("rawdict")`: its `type`, its `image` key
when that value is an int (`none` otherwise — in practice the value is the
raw bytes, so the code falls through to `number`), its `number` key, and
its `bbox`. -/
structure RawBlock where
  btype : Option Int
  image_int : Option Int
  number : Option Int
  bbox : Option BBox
deriving DecidableEq

/-- One merged per-xref record of `_xref_meta_list`
(the Python dict `{"xref": …, "smask": …, "mask": …, "cs": …, "bbox": …}`). -/
structure MetaRec where
  xref : Int
  smask : Option Int
  mask : Option Int
  cs : Option String
  bbox : Option BBox
deriving DecidableEq

/-- Insertion-ordered dictionary `Dict[int, MetaRec]`. -/
abbrev PyDict := List (Int × MetaRec)

/-- Python `meta.get(k)`: first entry with the key. -/
def dict_get : PyDict → Int → Option MetaRec
  | [], _ => none
  | p :: rest, k => if p.1 = k then some p.2 else dict_get rest k

/-- Python `meta[k] = v`: update the existing entry in place, else append. -/
def dict_set : PyDict → Int → MetaRec → PyDict
  | [], k, v => [(k, v)]
  | p :: rest, k, v => if p.1 = k then (k, v) :: rest else p :: dict_set rest k v

/-- Python `meta.setdefault(k, v)`. -/
def dict_setd : PyDict → Int → MetaRec → PyDict
  | [], k, v => [(k, v)]
  | p :: rest, k, v => if p.1 = k then p :: rest else p :: dict_setd rest k v

/-- Update the entry at key `k` in place (used only after a `setdefault`,
so the entry exists). -/
def dict_upd : PyDict → Int → (MetaRec → MetaRec) → PyDict
  | [], _, _ => []
  | p :: rest, k, f => if p.1 = k then (p.1, f p.2) :: rest else p :: dict_upd rest k f

/-- Fresh record `{"xref": x, "smask": None, "mask": None, "cs": None,
"bbox": None}` used by the `setdefault` calls. -/
def blank_rec (x : Int) : MetaRec :=
  { xref := x, smask := none, mask := none, cs := none, bbox := none }

/-- Record built for a `page.get_images` tuple (pdf_to_html.py line 111):
`smask or None` maps `0` to `None`. -/
def mk_entry_rec (e : ImgEntry) : MetaRec :=
  { xref := e.xref, smask := if e.smask = 0 then none else some e.smask,
    mask := none, cs := e.cs, bbox := none }

/-- Pass 1 of `_xref_meta_list` (lines 105-111): one `meta[xref] = {…}`
assignment per `get_images` tuple (a later tuple with the same xref
overwrites an earlier one). -/
def merge_step1 : PyDict → List ImgEntry → PyDict
  | m, [] => m
  | m, e :: rest => merge_step1 (dict_set m e.xref (mk_entry_rec e)) rest

/-- Pass 2, one `get_image_info` record (lines 115-125): skip unless `xref`
is an int; `setdefault`, then overwrite `bbox` / `smask` / `mask` with each
truthy value. -/
def merge_step2_one (m : PyDict) (r : InfoRec) : PyDict :=
  match r.xref with
  | none => m
  | some x =>
    let m1 := dict_setd m x (blank_rec x)
    let m2 := if r.bbox.isSome then dict_upd m1 x (fun q => { q with bbox := r.bbox }) else m1
    let m3 := if r.smask ≠ 0 then dict_upd m2 x (fun q => { q with smask := some r.smask }) else m2
    if r.mask ≠ 0 then dict_upd m3 x (fun q => { q with mask := some r.mask }) else m3

/-- Pass 2 of `_xref_meta_list` over all `get_image_info` records. -/
def merge_step2 : PyDict → List InfoRec → PyDict
  | m, [] => m
  | m, r :: rest => merge_step2 (merge_step2_one m r) rest

/-- Key under which a rawdict block files its bbox (line 134):
`block.get("image") if isinstance(block.get("image"), int) else
block.get("number")`. -/
def raw_key (b : RawBlock) : Option Int :=
  match b.image_int with
  | some v => some v
  | none => b.number

/-- Pass 3, one rawdict block (lines 131-138): only type-1 blocks with an
int key; `setdefault`, then set `bbox` only when still unset and the block
has one. -/
def merge_step3_one (m : PyDict) (b : RawBlock) : PyDict :=
  if b.btype ≠ some 1 then m
  else
    match raw_key b with
    | none => m
    | some x =>
      let m1 := dict_setd m x (blank_rec x)
      if ((dict_get m1 x).getD (blank_rec x)).bbox = none ∧ b.bbox.isSome then
        dict_upd m1 x (fun q => { q with bbox := b.bbox })
      else m1

/-- Pass 3 of `_xref_meta_list` over all rawdict blocks. -/
def merge_step3 : PyDict → List RawBlock → PyDict
  | m, [] => m
  | m, b :: rest => merge_step3 (merge_step3_one m b) rest

/-- The dictionary `meta` at the end of `_xref_meta_list`. -/
def merge_dict (imgs : List ImgEntry) (infos : List InfoRec) (raws : List RawBlock) : PyDict :=
  merge_step3 (merge_step2 (merge_step1 [] imgs) infos) raws

/-- Embedding of `_xref_meta_list` (pdf_to_html.py lines 98-145): the merged
records in insertion order, keeping only those with a bbox (lines 141-145). -/
def xref_meta_list (imgs : List ImgEntry) (infos : List InfoRec) (raws : List RawBlock) :
    List MetaRec :=
  ((merge_dict imgs infos raws).map Prod.snd).filter fun r => r.bbox.isSome

/-- Embedding of `_should_clip` (pdf_to_html.py lines 147-159). -/
def should_clip (meta : MetaRec) (image_mode : String) : Bool :=
  if image_mode = "clip" then true
  else if image_mode = "extract" then false
  else
    let cs := str_upper (meta.cs.getD "")
    if py_truthy meta.smask || py_truthy meta.mask then true
    else if contains_sub "CMYK" cs || contains_sub "ICC" cs then true
    else false

/-- One span of `page.get_text("dict")`; `none` fields model absent dict
keys (the renderer applies the `span.get(…, default)` defaults). -/
structure Span where
  text : Option String
  bbox : Option BBox
  size : Option ℚ
  color : Option Nat
  font : Option String
deriving DecidableEq

/-- One block of `page.get_text("dict")`: its `type` and its lines, each a
list of spans. -/
structure TBlock where
  btype : Option Int
  lines : List (List Span)
deriving DecidableEq

/-- Rendering of one text span (pdf_to_html.py lines 190-212): `none` when
the text is empty (the `continue`), otherwise the absolutely positioned
`<div class="t">`. -/
def render_span (scale : ℚ) (sp : Span) : Option String :=
  let text := sp.text.getD ""
  if text = "" then none
  else
    let (x0, y0, _x1, _y1) := sp.bbox.getD (0, 0, 0, 0)
    let size := sp.size.getD 12
    let color := int_rgb_to_css (sp.color.getD 0)
    let font := sp.font.getD "sans-serif"
    let bi := detect_bold_italic font
    let styles :=
      ["left:" ++ fmt2 (x0 * scale) ++ "px",
       "top:" ++ fmt2 (y0 * scale) ++ "px",
       "font-size:" ++ fmt3 (size * scale) ++ "px",
       "color:" ++ color,
       "font-family:" ++ html_escape true font]
      ++ (if bi.1 then ["font-weight:700"] else [])
      ++ (if bi.2 then ["font-style:italic"] else [])
    some ("<div class=\"t\" style=\"" ++ String.intercalate ";" styles ++ "\">"
      ++ sanitize_text text ++ "</div>")

/-- The `spans_html` list of `_render_page_html` (lines 183-212): spans of
type-0 blocks, in document order, one div per span with non-empty text. -/
def page_spans_html (scale : ℚ) (blocks : List TBlock) : List String :=
  ((blocks.filter fun b => decide (b.btype = some 0)).flatMap fun b => b.lines.flatten).filterMap
    (render_span scale)

/-- One emitted `<img>` tag (lines 246-254); `left`/`top`/`w`/`h` are the
already-scaled CSS values. -/
def img_tag (dataurl : String) (left top w h : ℚ) : String :=
  "<img class=\"img\" src=\"" ++ dataurl ++ "\" alt=\"\" style=\""
    ++ String.intercalate ";"
      ["position:absolute",
       "left:" ++ fmt2 left ++ "px",
       "top:" ++ fmt2 top ++ "px",
       "width:" ++ fmt2 w ++ "px",
       "height:" ++ fmt2 h ++ "px",
       "object-fit:contain"]
    ++ "\" />"

/-- Processing of one merged image record in the image loop of
`_render_page_html` (lines 216-254).  Result: `.ok none` when the region is
skipped (degenerate geometry, or a falsy data URL at line 243), `.ok (some
tag)` when an `<img>` is emitted, `.error` when the clip render raises (the
source has no handler there, so the exception propagates).  The control
flow is the source's `use_clip` flag unfolded: clip decided up front, or
extraction with fallback to clip when no pixmap is produced. -/
def render_image (env : FitzEnv) (clipf : BBox → ℚ → Except Unit Pix) (meta : MetaRec)
    (image_mode : String) (scale clip_oversample : ℚ) : Except Unit (Option String) :=
  match meta.bbox with
  | none => .ok none
  | some (x0, y0, x1, y1) =>
    let width := (x1 - x0) * scale
    let height := (y1 - y0) * scale
    if width ≤ 0 ∨ height ≤ 0 then .ok none
    else
      let emit : String → Except Unit (Option String) := fun dataurl =>
        if dataurl = "" then .ok none
        else .ok (some (img_tag dataurl (x0 * scale) (y0 * scale) width height))
      if should_clip meta image_mode then
        match render_clip_px clipf (x0, y0, x1, y1) clip_oversample with
        | .error e => .error e
        | .ok pix => emit (png_dataurl env pix)
      else
        match pixmap_from_xref_safely env meta.xref meta.smask meta.mask with
        | some pix => emit (png_dataurl env pix)
        | none =>
          match render_clip_px clipf (x0, y0, x1, y1) clip_oversample with
          | .error e => .error e
          | .ok pix => emit (png_dataurl env pix)

/-- The `images_html` list of `_render_page_html`: the loop over
`_xref_meta_list(page)`, skipping `none` results and propagating a raised
exception. -/
def render_images (env : FitzEnv) (clipf : BBox → ℚ → Except Unit Pix)
    (metas : List MetaRec) (image_mode : String) (scale clip_oversample : ℚ) :
    Except Unit (List String) :=
  match metas with
  | [] => .ok []
  | meta :: rest =>
    match render_image env clipf meta image_mode scale clip_oversample with
    | .error e => .error e
    | .ok o =>
      match render_images env clipf rest image_mode scale clip_oversample with
      | .error e => .error e
      | .ok tail => .ok (match o with | some s => s :: tail | none => tail)

/-- The `<section class="page">` block returned by `_render_page_html`
(lines 256-261), whitespace included. -/
def section_html (pw_pt ph_pt scale : ℚ) (spans_html images_html : List String) : String :=
  "\n    <section class=\"page\" style=\"width:" ++ fmt2 (pw_pt * scale)
    ++ "px;height:" ++ fmt2 (ph_pt * scale) ++ "px\">\n      <div class=\"text-layer\">"
    ++ String.join spans_html ++ "</div>\n      <div class=\"image-layer\">"
    ++ String.join images_html ++ "</div>\n    </section>\n    "

/-- One page as handed over by PyMuPDF: geometry, the text dictionary, the
three image-metadata sources, and the page's clip rasteriser
(`page.get_pixmap` with a clip rectangle and an oversample factor). -/
structure PageData where
  width : ℚ
  height : ℚ
  blocks : List TBlock
  imgs : List ImgEntry
  infos : List InfoRec
  raws : List RawBlock
  clip : BBox → ℚ → Except Unit Pix

/-- Embedding of `_render_page_html` (lines 177-261).  The `debug` flag only
gates `print` calls in the source and does not affect the returned HTML. -/
def render_page_html (env : FitzEnv) (pg : PageData) (scale : ℚ) (image_mode : String)
    (clip_oversample : ℚ) (debug : Bool) : Except Unit String :=
  let spans_html := page_spans_html scale pg.blocks
  match render_images env pg.clip (xref_meta_list pg.imgs pg.infos pg.raws)
      image_mode scale clip_oversample with
  | .error e => .error e
  | .ok images_html => .ok (section_html pg.width pg.height scale spans_html images_html)

/-- The page loop of `pdf_to_html` (lines 266-268). -/
def render_pages (env : FitzEnv) (pages : List PageData) (scale : ℚ) (image_mode : String)
    (clip_oversample : ℚ) (debug : Bool) : Except Unit (List String) :=
  match pages with
  | [] => .ok []
  | pg :: rest =>
    match render_page_html env pg scale image_mode clip_oversample debug with
    | .error e => .error e
    | .ok body =>
      match render_pages env rest scale image_mode clip_oversample debug with
      | .error e => .error e
      | .ok tail => .ok (body :: tail)

/-- Opening part of `HTML_SHELL` (pdf_to_html.py lines 14-39) up to the
`{title}` placeholder. -/
def shell_head : String :=
  "<!doctype html>\n<html lang=\"ru\">\n<head>\n  <meta charset=\"utf-8\">\n  <title>"

/-- Middle part of `HTML_SHELL` between `{title}` and `{body}` (the `\x7b\x7b`
escapes of the Python template are already collapsed to single braces, as
`str.format` leaves them in the output). -/
def shell_mid : String :=
  "</title>\n  <meta name=\"viewport\" content=\"width=device-width, initial-scale=1\"/>\n  <style>\n    :root \x7b --bg:#fff; --fg:#111; \x7d\n    html,body \x7b margin:0; padding:0; background:var(--bg); color:var(--fg); \x7d\n    body \x7b\n      font-family:-apple-system,BlinkMacSystemFont,\"Segoe UI\",Roboto,Helvetica,Arial,\"Apple Color Emoji\",\"Segoe UI Emoji\";\n      -webkit-font-smoothing:antialiased; -moz-osx-font-smoothing:grayscale;\n    \x7d\n    .doc \x7b display:flex; flex-direction:column; align-items:center; gap:24px; padding:24px 12px 48px; \x7d\n    .page \x7b position:relative; box-shadow:0 2px 12px rgba(0,0,0,.12); background:#fff; overflow:hidden; \x7d\n    .text-layer, .image-layer \x7b position:absolute; inset:0; transform-origin:top left; \x7d\n    .text-layer \x7b z-index:2; pointer-events:none; \x7d\n    .image-layer \x7b z-index:1; pointer-events:none; \x7d\n    .t \x7b position:absolute; white-space:pre; line-height:1; \x7d\n  </style>\n</head>\n<body>\n  <div class=\"doc\">"

/-- Closing part of `HTML_SHELL` after the `{body}` placeholder. -/
def shell_tail : String := "</div>\n</body>\n</html>\n"

/-- `HTML_SHELL.format(title=…, body=…)` (line 269-272). -/
def html_shell (title body : String) : String :=
  shell_head ++ title ++ shell_mid ++ body ++ shell_tail

/-- Python exceptions distinguished by the embedding: the `assert` of
`pdf_to_html` (line 264) versus an exception raised by the PDF library. -/
inductive PyErr
  | assertion
  | fitz
deriving DecidableEq

/-- Embedding of `pdf_to_html` (pdf_to_html.py lines 263-272).  `opened`
models `fitz.open(input_pdf)` — the pages and the document's pixmap
operations on success, a raised exception on failure; the `assert` on
`image_mode` runs before the document is opened.  `stem` is
`input_pdf.stem`. -/
def pdf_to_html (opened : Except Unit (List PageData × FitzEnv)) (stem : String)
    (scale : ℚ) (image_mode : String) (clip_oversample : ℚ) (debug : Bool) :
    Except PyErr String :=
  if image_mode = "auto" ∨ image_mode = "extract" ∨ image_mode = "clip" then
    match opened with
    | .error _ => .error PyErr.fitz
    | .ok (pages, env) =>
      match render_pages env pages scale image_mode clip_oversample debug with
      | .error _ => .error PyErr.fitz
      | .ok bodies =>
        .ok (html_shell (html_escape true stem) (String.intercalate "\n" bodies))
  else .error PyErr.assertion

/-- Modelled file-system semantics of `Path.write_text` (used directly by
`main`, pdf_to_html.py line 294, and by `save_html_to_uploads`,
api/utils.py line 194; neither call site uses a temporary file or a
rename).  Opening for writing truncates the destination; the content is
then written sequentially, so a write that stops after `k` characters
leaves the first `k` characters. -/
def write_text_stopped (content : String) (k : Nat) : String :=
  String.mk (content.toList.take k)

/-- Destination contents after `dest.write_text(content)`: the full content
on success (`outcome = none`), the written prefix when the write stops
after `k` characters (`outcome = some k`). -/
def write_text_result (content : String) (outcome : Option Nat) : Option String :=
  match outcome with
  | none => some content
  | some k => some (write_text_stopped content k)

/-- Destination state after the write step of `main` (lines 293-294):
`args.output.write_text(html_out)` overwrites the destination directly;
`prev` — the destination's prior contents (`none` when absent) — is
discarded the moment the file is opened. -/
def main_write (prev : Option String) (content : String) (outcome : Option Nat) :
    Option String :=
  write_text_result content outcome

/-- Per-key effect of pass 1: the record of the last `get_images` tuple with
this xref, if any. -/
def spec_step1 : List ImgEntry → Int → Option MetaRec
  | [], _ => none
  | e :: rest, x =>
    match spec_step1 rest x with
    | some r => some r
    | none => if e.xref = x then some (mk_entry_rec e) else none

/-- Per-key effect of one `get_image_info` record at key `x`. -/
def apply_info (cur : Option MetaRec) (r : InfoRec) (x : Int) : Option MetaRec :=
  match r.xref with
  | none => cur
  | some y =>
    if y = x then
      let q0 := cur.getD (blank_rec x)
      let q1 := if r.bbox.isSome then { q0 with bbox := r.bbox } else q0
      let q2 := if r.smask ≠ 0 then { q1 with smask := some r.smask } else q1
      some (if r.mask ≠ 0 then { q2 with mask := some r.mask } else q2)
    else cur

/-- Per-key effect of pass 2 at key `x`. -/
def spec_step2 : Option MetaRec → List InfoRec → Int → Option MetaRec
  | cur, [], _ => cur
  | cur, r :: rest, x => spec_step2 (apply_info cur r x) rest x

/-- Per-key effect of one rawdict block at key `x`. -/
def apply_raw (cur : Option MetaRec) (b : RawBlock) (x : Int) : Option MetaRec :=
  if b.btype ≠ some 1 then cur
  else
    match raw_key b with
    | none => cur
    | some y =>
      if y = x then
        let q := cur.getD (blank_rec x)
        some (if q.bbox = none ∧ b.bbox.isSome then { q with bbox := b.bbox } else q)
      else cur

/-- Per-key effect of pass 3 at key `x`. -/
def spec_step3 : Option MetaRec → List RawBlock → Int → Option MetaRec
  | cur, [], _ => cur
  | cur, b :: rest, x => spec_step3 (apply_raw cur b x) rest x

/-- Per-key value of the whole merge: what `_xref_meta_list`'s dictionary
holds at key `x` (before the final bbox filter). -/
def merge_spec (imgs : List ImgEntry) (infos : List InfoRec) (raws : List RawBlock)
    (x : Int) : Option MetaRec :=
  spec_step3 (spec_step2 (spec_step1 imgs x) infos x) raws x

/-- Last truthy `smask` among the image-info records for key `x`. -/
def last_info_smask : List InfoRec → Int → Option Int
  | [], _ => none
  | r :: rest, x =>
    oor (last_info_smask rest x) (if r.xref = some x ∧ r.smask ≠ 0 then some r.smask else none)

/-- Last truthy `mask` among the image-info records for key `x`. -/
def last_info_mask : List InfoRec → Int → Option Int
  | [], _ => none
  | r :: rest, x =>
    oor (last_info_mask rest x) (if r.xref = some x ∧ r.mask ≠ 0 then some r.mask else none)

/-- Last truthy `bbox` among the image-info records for key `x`. -/
def last_info_bbox : List InfoRec → Int → Option BBox
  | [], _ => none
  | r :: rest, x =>
    oor (last_info_bbox rest x) (if r.xref = some x ∧ r.bbox.isSome then r.bbox else none)

/-- First located bbox among the type-1 rawdict blocks filed under key `x`. -/
def first_raw_bbox : List RawBlock → Int → Option BBox
  | [], _ => none
  | b :: rest, x =>
    if b.btype = some 1 ∧ raw_key b = some x ∧ b.bbox.isSome then b.bbox
    else first_raw_bbox rest x

/-- First truthy `smask` among the `get_images` tuples for key `x`. -/
def first_img_smask : List ImgEntry → Int → Option Int
  | [], _ => none
  | e :: rest, x =>
    if e.xref = x ∧ e.smask ≠ 0 then some e.smask else first_img_smask rest x

/-- First truthy `smask` among the image-info records for key `x`. -/
def first_info_smask : List InfoRec → Int → Option Int
  | [], _ => none
  | r :: rest, x =>
    if r.xref = some x ∧ r.smask ≠ 0 then some r.smask else first_info_smask rest x

/-- Claimed merge rule, taken from the spec's words rather than the code:
"mask identifiers keep the first non-null values found" — the first
non-null soft-mask scanning the sources in their pass order (page-level
image list, then image-info query). -/
def claimed_first_smask (imgs : List ImgEntry) (infos : List InfoRec) (x : Int) : Option Int :=
  oor (first_img_smask imgs x) (first_info_smask infos x)

/-- Opaque 3-channel RGB pixmap used by concrete scenarios. -/
def pixRGB : Pix := { n := 3, alpha := false, csN := some 3, data := 0 }

/-- Environment whose pixmap operations all succeed. -/
def env_ok : FitzEnv :=
  { loadPix := fun _ => .ok pixRGB, addMask := fun _ _ => .ok pixRGB,
    pngB64 := fun _ => "AAAA" }

/-- Page rasteriser that always succeeds. -/
def clip_ok : BBox → ℚ → Except Unit Pix := fun _ _ => .ok pixRGB

/-- Environment where loading xref 1 raises and every other load succeeds. -/
def env_c1 : FitzEnv :=
  { loadPix := fun x => if x = 1 then .error () else .ok pixRGB,
    addMask := fun _ _ => .ok pixRGB, pngB64 := fun _ => "AAAA" }

/-- Page rasteriser that raises exactly on the rectangle `(0,0,1,1)`. -/
def clip_c1 : BBox → ℚ → Except Unit Pix :=
  fun bb _ => if bb = ((0 : ℚ), (0 : ℚ), (1 : ℚ), (1 : ℚ)) then .error () else .ok pixRGB

/-- Image record whose extraction and clip render both fail under `env_c1` /
`clip_c1`. -/
def meta_c1a : MetaRec :=
  { xref := 1, smask := none, mask := none, cs := none, bbox := some (0, 0, 1, 1) }

/-- Image record that renders fine under `env_c1` / `clip_c1`. -/
def meta_c1b : MetaRec :=
  { xref := 2, smask := none, mask := none, cs := none, bbox := some (2, 2, 3, 3) }

/-- Page holding the two images above. -/
def page_c1 : PageData :=
  { width := 10, height := 10, blocks := [],
    imgs := [⟨1, 0, none⟩, ⟨2, 0, none⟩],
    infos := [⟨some 1, some (0, 0, 1, 1), 0, 0⟩, ⟨some 2, some (2, 2, 3, 3), 0, 0⟩],
    raws := [], clip := clip_c1 }

/-- Page with no text and no images. -/
def page_empty : PageData :=
  { width := 10, height := 20, blocks := [], imgs := [], infos := [], raws := [],
    clip := clip_ok }

/-- The spec's scenario span: literal text `Hello`, size 12. -/
def span_hello : Span :=
  { text := some "Hello", bbox := some (10, 20, 30, 40), size := some 12,
    color := some 0, font := some "Arial" }

/-- Span with non-empty text and no bounding box at all. -/
def span_nobbox : Span :=
  { text := some "x", bbox := none, size := none, color := none, font := none }

/-- Page-level image list where xref 1 carries soft-mask 5. -/
def imgs_c4 : List ImgEntry := [⟨1, 5, none⟩]

/-- Image-info record where xref 1 carries soft-mask 7 and a bbox. -/
def infos_c4 : List InfoRec := [⟨some 1, some (0, 0, 1, 1), 7, 0⟩]

/-- The unique record `_xref_meta_list` produces from `imgs_c4`/`infos_c4`. -/
def meta_c4 : MetaRec :=
  { xref := 1, smask := some 7, mask := none, cs := none, bbox := some (0, 0, 1, 1) }

/-- Image record with zero scaled width (degenerate geometry). -/
def meta_deg : MetaRec :=
  { xref := 3, smask := none, mask := none, cs := none, bbox := some (0, 0, 0, 5) }

/-- Decidable equality of `Except` values (componentwise). -/
instance except_dec_eq {ε α : Type} [DecidableEq ε] [DecidableEq α] :
    DecidableEq (Except ε α) := fun a b =>
  match a, b with
  | .ok x, .ok y =>
    if h : x = y then .isTrue (by rw [h]) else .isFalse fun hh => h (Except.ok.inj hh)
  | .error x, .error y =>
    if h : x = y then .isTrue (by rw [h]) else .isFalse fun hh => h (Except.error.inj hh)
  | .ok _, .error _ => .isFalse fun hh => Except.noConfusion hh
  | .error _, .ok _ => .isFalse fun hh => Except.noConfusion hh

/-- Keys of the dictionary, in insertion order. -/
def dict_keys (m : PyDict) : List Int := m.map Prod.fst

/-- Well-formedness of the merge dictionary: every stored record carries its
own key in its `xref` field. -/
def key_inv (m : PyDict) : Prop := ∀ p ∈ m, p.2.xref = p.1

/-- Environment where every pixmap load raises (extraction always fails). -/
def env_fail : FitzEnv :=
  { loadPix := fun _ => .error (), addMask := fun _ _ => .error (),
    pngB64 := fun _ => "AAAA" }

/-- One text block holding the `Hello` span. -/
def blocks_hello : List TBlock := [{ btype := some 0, lines := [[span_hello]] }]

/-- Span whose `text` key is absent (Python default `""`, the empty-text
`continue`). -/
def span_empty : Span :=
  { text := none, bbox := some (1, 1, 2, 2), size := none, color := none, font := none }

theorem oor_none_right {α : Type} (a : Option α) : oor a none = a := by
  cases a <;> rfl

theorem oor_assoc {α : Type} (a b c : Option α) : oor (oor a b) c = oor a (oor b c) := by
  cases a <;> cases b <;> rfl

theorem dict_get_set (k : Int) (v : MetaRec) (x : Int) :
    ∀ m : PyDict, dict_get (dict_set m k v) x = if k = x then some v else dict_get m x := by
  intro m
  induction m with
  | nil => simp [dict_set, dict_get]
  | cons p rest ih =>
    simp only [dict_set]
    by_cases h1 : p.1 = k
    · by_cases h2 : k = x
      · simp [dict_get, h1, h2]
      · have hpx : ¬ p.1 = x := by rw [h1]; exact h2
        simp [dict_get, h1, h2, hpx]
    · by_cases h2 : k = x
      · subst h2
        simp [dict_get, h1, ih]
      · simp [dict_get, h1, h2, ih]

theorem dict_get_setd (k : Int) (v : MetaRec) (x : Int) :
    ∀ m : PyDict,
      dict_get (dict_setd m k v) x =
        if k = x then some ((dict_get m k).getD v) else dict_get m x := by
  intro m
  induction m with
  | nil => simp [dict_setd, dict_get]
  | cons p rest ih =>
    simp only [dict_setd]
    by_cases h1 : p.1 = k
    · by_cases h2 : k = x
      · have hpx : p.1 = x := h1.trans h2
        simp [dict_get, h1, h2, hpx]
      · simp [dict_get, h1, h2]
    · by_cases h2 : k = x
      · subst h2
        simp [dict_get, h1, ih]
      · simp [dict_get, h1, h2, ih]

theorem dict_get_upd (k : Int) (f : MetaRec → MetaRec) (x : Int) :
    ∀ m : PyDict,
      dict_get (dict_upd m k f) x =
        if k = x then (dict_get m k).map f else dict_get m x := by
  intro m
  induction m with
  | nil => simp [dict_upd, dict_get]
  | cons p rest ih =>
    simp only [dict_upd]
    by_cases h1 : p.1 = k
    · by_cases h2 : k = x
      · have hpx : p.1 = x := h1.trans h2
        simp [dict_get, h1, h2, hpx]
      · have hpx : ¬ p.1 = x := by rw [h1]; exact h2
        simp [dict_get, h1, h2, hpx]
    · by_cases h2 : k = x
      · subst h2
        simp [dict_get, h1, ih]
      · simp [dict_get, h1, h2, ih]

theorem get_merge_step1 (x : Int) :
    ∀ (es : List ImgEntry) (m : PyDict),
      dict_get (merge_step1 m es) x = oor (spec_step1 es x) (dict_get m x) := by
  intro es
  induction es with
  | nil => intro m; simp [merge_step1, spec_step1, oor]
  | cons e rest ih =>
    intro m
    simp only [merge_step1, spec_step1]
    rw [ih, dict_get_set]
    cases h : spec_step1 rest x with
    | some r => simp [oor]
    | none =>
      by_cases he : e.xref = x <;> simp [oor, he]

theorem get_merge_step2_one (m : PyDict) (r : InfoRec) (x : Int) :
    dict_get (merge_step2_one m r) x = apply_info (dict_get m x) r x := by
  unfold merge_step2_one apply_info
  cases hx : r.xref with
  | none => rfl
  | some y =>
    by_cases hy : y = x
    · subst hy
      by_cases hb : r.bbox.isSome <;> by_cases hs : r.smask ≠ 0 <;> by_cases hm : r.mask ≠ 0 <;>
        simp [hb, hs, hm, dict_get_upd, dict_get_setd]
    · by_cases hb : r.bbox.isSome <;> by_cases hs : r.smask ≠ 0 <;> by_cases hm : r.mask ≠ 0 <;>
        simp [hb, hs, hm, dict_get_upd, dict_get_setd, hy]

theorem get_merge_step2 (x : Int) :
    ∀ (rs : List InfoRec) (m : PyDict),
      dict_get (merge_step2 m rs) x = spec_step2 (dict_get m x) rs x := by
  intro rs
  induction rs with
  | nil => intro m; rfl
  | cons r rest ih =>
    intro m
    simp only [merge_step2, spec_step2]
    rw [ih, get_merge_step2_one]

theorem get_merge_step3_one (m : PyDict) (b : RawBlock) (x : Int) :
    dict_get (merge_step3_one m b) x = apply_raw (dict_get m x) b x := by
  unfold merge_step3_one apply_raw
  by_cases ht : b.btype ≠ some 1
  · simp [ht]
  · simp only [if_neg ht]
    cases hk : raw_key b with
    | none => rfl
    | some y =>
      have hsd : dict_get (dict_setd m y (blank_rec y)) y
          = some ((dict_get m y).getD (blank_rec y)) := by
        rw [dict_get_setd]; simp
      simp only [hsd, Option.getD_some]
      by_cases hc : ((dict_get m y).getD (blank_rec y)).bbox = none ∧ b.bbox.isSome = true
      · simp only [if_pos hc]
        by_cases hy : y = x
        · subst hy
          rw [dict_get_upd, if_pos rfl, hsd]
          simp [hc]
        · rw [dict_get_upd, if_neg hy, dict_get_setd, if_neg hy]
          simp [hy]
      · simp only [if_neg hc]
        by_cases hy : y = x
        · subst hy
          rw [dict_get_setd, if_pos rfl]
          simp [hc]
        · rw [dict_get_setd, if_neg hy]
          simp [hy]

theorem get_merge_step3 (x : Int) :
    ∀ (bs : List RawBlock) (m : PyDict),
      dict_get (merge_step3 m bs) x = spec_step3 (dict_get m x) bs x := by
  intro bs
  induction bs with
  | nil => intro m; rfl
  | cons b rest ih =>
    intro m
    simp only [merge_step3, spec_step3]
    rw [ih, get_merge_step3_one]

theorem get_merge_dict (imgs : List ImgEntry) (infos : List InfoRec) (raws : List RawBlock)
    (x : Int) : dict_get (merge_dict imgs infos raws) x = merge_spec imgs infos raws x := by
  unfold merge_dict merge_spec
  rw [get_merge_step3, get_merge_step2, get_merge_step1]
  simp [dict_get, oor_none_right]

theorem keys_dict_set (k : Int) (v : MetaRec) :
    ∀ m : PyDict,
      dict_keys (dict_set m k v) =
        if (dict_get m k).isSome then dict_keys m else dict_keys m ++ [k] := by
  intro m
  induction m with
  | nil => simp [dict_set, dict_get, dict_keys]
  | cons p rest ih =>
    simp only [dict_set, dict_get]
    by_cases h1 : p.1 = k
    · simp [dict_keys, h1]
    · simp only [if_neg h1, dict_keys, List.map_cons]
      rw [show (dict_set rest k v).map Prod.fst = dict_keys (dict_set rest k v) from rfl, ih]
      cases hg : dict_get rest k <;> simp [dict_keys]

theorem keys_dict_setd (k : Int) (v : MetaRec) :
    ∀ m : PyDict,
      dict_keys (dict_setd m k v) =
        if (dict_get m k).isSome then dict_keys m else dict_keys m ++ [k] := by
  intro m
  induction m with
  | nil => simp [dict_setd, dict_get, dict_keys]
  | cons p rest ih =>
    simp only [dict_setd, dict_get]
    by_cases h1 : p.1 = k
    · simp [dict_keys, h1]
    · simp only [if_neg h1, dict_keys, List.map_cons]
      rw [show (dict_setd rest k v).map Prod.fst = dict_keys (dict_setd rest k v) from rfl, ih]
      cases hg : dict_get rest k <;> simp [dict_keys]

theorem keys_dict_upd (k : Int) (f : MetaRec → MetaRec) :
    ∀ m : PyDict, dict_keys (dict_upd m k f) = dict_keys m := by
  intro m
  induction m with
  | nil => rfl
  | cons p rest ih =>
    simp only [dict_upd]
    by_cases h1 : p.1 = k
    · simp [dict_keys, h1]
    · simp only [if_neg h1, dict_keys, List.map_cons]
      rw [show (dict_upd rest k f).map Prod.fst = dict_keys (dict_upd rest k f) from rfl, ih]
      rfl

theorem not_mem_keys_of_get_none :
    ∀ (m : PyDict) (k : Int), dict_get m k = none → k ∉ dict_keys m := by
  intro m
  induction m with
  | nil => intro k _ h; cases h
  | cons p rest ih =>
    intro k hg
    simp only [dict_get] at hg
    by_cases h1 : p.1 = k
    · rw [if_pos h1] at hg; cases hg
    · rw [if_neg h1] at hg
      simp only [dict_keys, List.map_cons, List.mem_cons]
      rintro (h | h)
      · exact h1 h.symm
      · exact ih k hg h

theorem nodup_keys_dict_set (k : Int) (v : MetaRec) (m : PyDict)
    (h : (dict_keys m).Nodup) : (dict_keys (dict_set m k v)).Nodup := by
  rw [keys_dict_set]
  cases hg : dict_get m k with
  | some r => simpa [hg] using h
  | none =>
    have hk := not_mem_keys_of_get_none m k hg
    simp [hg, List.nodup_append, h, hk]

theorem nodup_keys_dict_setd (k : Int) (v : MetaRec) (m : PyDict)
    (h : (dict_keys m).Nodup) : (dict_keys (dict_setd m k v)).Nodup := by
  rw [keys_dict_setd]
  cases hg : dict_get m k with
  | some r => simpa [hg] using h
  | none =>
    have hk := not_mem_keys_of_get_none m k hg
    simp [hg, List.nodup_append, h, hk]

theorem nodup_keys_dict_upd (k : Int) (f : MetaRec → MetaRec) (m : PyDict)
    (h : (dict_keys m).Nodup) : (dict_keys (dict_upd m k f)).Nodup := by
  rw [keys_dict_upd]; exact h

theorem key_inv_dict_set (k : Int) (v : MetaRec) (hv : v.xref = k) :
    ∀ m : PyDict, key_inv m → key_inv (dict_set m k v) := by
  intro m
  induction m with
  | nil =>
    intro _ p hp
    simp only [dict_set, List.mem_singleton] at hp
    rw [hp]; exact hv
  | cons q rest ih =>
    intro h p hp
    simp only [dict_set] at hp
    by_cases h1 : q.1 = k
    · rw [if_pos h1] at hp
      rcases List.mem_cons.mp hp with h2 | h2
      · rw [h2]; exact hv
      · exact h p (List.mem_cons_of_mem q h2)
    · rw [if_neg h1] at hp
      rcases List.mem_cons.mp hp with h2 | h2
      · rw [h2]; exact h q (List.mem_cons_self q rest)
      · exact ih (fun r hr => h r (List.mem_cons_of_mem q hr)) p h2

theorem key_inv_dict_setd (k : Int) (v : MetaRec) (hv : v.xref = k) :
    ∀ m : PyDict, key_inv m → key_inv (dict_setd m k v) := by
  intro m
  induction m with
  | nil =>
    intro _ p hp
    simp only [dict_setd, List.mem_singleton] at hp
    rw [hp]; exact hv
  | cons q rest ih =>
    intro h p hp
    simp only [dict_setd] at hp
    by_cases h1 : q.1 = k
    · rw [if_pos h1] at hp
      exact h p hp
    · rw [if_neg h1] at hp
      rcases List.mem_cons.mp hp with h2 | h2
      · rw [h2]; exact h q (List.mem_cons_self q rest)
      · exact ih (fun r hr => h r (List.mem_cons_of_mem q hr)) p h2

theorem key_inv_dict_upd (k : Int) (f : MetaRec → MetaRec)
    (hf : ∀ q, (f q).xref = q.xref) :
    ∀ m : PyDict, key_inv m → key_inv (dict_upd m k f) := by
  intro m
  induction m with
  | nil => intro h; exact h
  | cons q rest ih =>
    intro h p hp
    simp only [dict_upd] at hp
    by_cases h1 : q.1 = k
    · rw [if_pos h1] at hp
      rcases List.mem_cons.mp hp with h2 | h2
      · rw [h2]
        simp only [hf]
        exact h q (List.mem_cons_self q rest)
      · exact h p (List.mem_cons_of_mem q h2)
    · rw [if_neg h1] at hp
      rcases List.mem_cons.mp hp with h2 | h2
      · rw [h2]; exact h q (List.mem_cons_self q rest)
      · exact ih (fun r hr => h r (List.mem_cons_of_mem q hr)) p h2

theorem cond_upd_inv (k : Int) (f : MetaRec → MetaRec) (hf : ∀ q, (f q).xref = q.xref)
    (c : Prop) [Decidable c] (m : PyDict)
    (h : key_inv m ∧ (dict_keys m).Nodup) :
    key_inv (if c then dict_upd m k f else m) ∧
      (dict_keys (if c then dict_upd m k f else m)).Nodup := by
  split_ifs
  · exact ⟨key_inv_dict_upd k f hf m h.1, nodup_keys_dict_upd k f m h.2⟩
  · exact h

theorem merge_step1_inv :
    ∀ (es : List ImgEntry) (m : PyDict),
      key_inv m ∧ (dict_keys m).Nodup →
      key_inv (merge_step1 m es) ∧ (dict_keys (merge_step1 m es)).Nodup := by
  intro es
  induction es with
  | nil => intro m h; exact h
  | cons e rest ih =>
    intro m h
    exact ih _ ⟨key_inv_dict_set e.xref (mk_entry_rec e) rfl m h.1,
      nodup_keys_dict_set e.xref (mk_entry_rec e) m h.2⟩

theorem merge_step2_one_inv (m : PyDict) (r : InfoRec)
    (h : key_inv m ∧ (dict_keys m).Nodup) :
    key_inv (merge_step2_one m r) ∧ (dict_keys (merge_step2_one m r)).Nodup := by
  unfold merge_step2_one
  cases r.xref with
  | none => exact h
  | some x =>
    have g : key_inv (dict_setd m x (blank_rec x)) ∧
        (dict_keys (dict_setd m x (blank_rec x))).Nodup :=
      ⟨key_inv_dict_setd x (blank_rec x) rfl m h.1, nodup_keys_dict_setd x (blank_rec x) m h.2⟩
    dsimp only
    refine cond_upd_inv x (fun q => { q with mask := some r.mask }) (fun q => rfl)
      (r.mask ≠ 0) _ ?_
    refine cond_upd_inv x (fun q => { q with smask := some r.smask }) (fun q => rfl)
      (r.smask ≠ 0) _ ?_
    exact cond_upd_inv x (fun q => { q with bbox := r.bbox }) (fun q => rfl)
      (r.bbox.isSome = true) _ g

theorem merge_step2_inv :
    ∀ (rs : List InfoRec) (m : PyDict),
      key_inv m ∧ (dict_keys m).Nodup →
      key_inv (merge_step2 m rs) ∧ (dict_keys (merge_step2 m rs)).Nodup := by
  intro rs
  induction rs with
  | nil => intro m h; exact h
  | cons r rest ih => intro m h; exact ih _ (merge_step2_one_inv m r h)

theorem merge_step3_one_inv (m : PyDict) (b : RawBlock)
    (h : key_inv m ∧ (dict_keys m).Nodup) :
    key_inv (merge_step3_one m b) ∧ (dict_keys (merge_step3_one m b)).Nodup := by
  unfold merge_step3_one
  split_ifs with ht
  · exact h
  · cases raw_key b with
    | none => exact h
    | some x =>
      have g : key_inv (dict_setd m x (blank_rec x)) ∧
          (dict_keys (dict_setd m x (blank_rec x))).Nodup :=
        ⟨key_inv_dict_setd x (blank_rec x) rfl m h.1,
         nodup_keys_dict_setd x (blank_rec x) m h.2⟩
      dsimp only
      exact cond_upd_inv x (fun q => { q with bbox := b.bbox }) (fun q => rfl)
        (((dict_get (dict_setd m x (blank_rec x)) x).getD (blank_rec x)).bbox = none ∧
          b.bbox.isSome = true) _ g

theorem merge_step3_inv :
    ∀ (bs : List RawBlock) (m : PyDict),
      key_inv m ∧ (dict_keys m).Nodup →
      key_inv (merge_step3 m bs) ∧ (dict_keys (merge_step3 m bs)).Nodup := by
  intro bs
  induction bs with
  | nil => intro m h; exact h
  | cons b rest ih => intro m h; exact ih _ (merge_step3_one_inv m b h)

theorem merge_dict_inv (imgs : List ImgEntry) (infos : List InfoRec) (raws : List RawBlock) :
    key_inv (merge_dict imgs infos raws) ∧ (dict_keys (merge_dict imgs infos raws)).Nodup := by
  unfold merge_dict
  exact merge_step3_inv raws _ (merge_step2_inv infos _ (merge_step1_inv imgs []
    ⟨fun p hp => absurd hp (List.not_mem_nil p), List.nodup_nil⟩))

theorem get_of_mem :
    ∀ (m : PyDict), (dict_keys m).Nodup → ∀ p ∈ m, dict_get m p.1 = some p.2 := by
  intro m
  induction m with
  | nil => intro _ p hp; cases hp
  | cons q rest ih =>
    intro hnd p hp
    rcases List.mem_cons.mp hp with h | h
    · rw [h]; simp [dict_get]
    · have hnd2 : (q.1 :: dict_keys rest).Nodup := hnd
      have hq : ¬ q.1 = p.1 := by
        intro he
        have h1 : p.1 ∈ dict_keys rest := List.mem_map_of_mem Prod.fst h
        rw [← he] at h1
        exact (List.nodup_cons.mp hnd2).1 h1
      simp only [dict_get, if_neg hq]
      exact ih (List.nodup_cons.mp hnd2).2 p h

theorem mem_values_of_get :
    ∀ (m : PyDict) (k : Int) (r : MetaRec),
      dict_get m k = some r → r ∈ m.map Prod.snd := by
  intro m
  induction m with
  | nil => intro k r h; cases h
  | cons q rest ih =>
    intro k r h
    simp only [dict_get] at h
    by_cases h1 : q.1 = k
    · rw [if_pos h1] at h
      simp [Option.some.inj h]
    · rw [if_neg h1] at h
      exact List.mem_cons_of_mem _ (ih k r h)

theorem mem_xref_meta_list (imgs : List ImgEntry) (infos : List InfoRec)
    (raws : List RawBlock) (rec : MetaRec) :
    rec ∈ xref_meta_list imgs infos raws ↔
      merge_spec imgs infos raws rec.xref = some rec ∧ rec.bbox.isSome = true := by
  have hinv := merge_dict_inv imgs infos raws
  unfold xref_meta_list
  constructor
  · intro h
    rcases List.mem_filter.mp h with ⟨hv, hb⟩
    rcases List.mem_map.mp hv with ⟨p, hp, hsnd⟩
    have h1 : dict_get (merge_dict imgs infos raws) p.1 = some p.2 :=
      get_of_mem _ hinv.2 p hp
    have h2 : p.2.xref = p.1 := hinv.1 p hp
    refine ⟨?_, hb⟩
    rw [← get_merge_dict, ← hsnd, h2]
    exact h1
  · rintro ⟨hs, hb⟩
    refine List.mem_filter.mpr ⟨?_, hb⟩
    have h1 : dict_get (merge_dict imgs infos raws) rec.xref = some rec := by
      rw [get_merge_dict]; exact hs
    exact mem_values_of_get _ _ _ h1

theorem xref_meta_list_keys_nodup (imgs : List ImgEntry) (infos : List InfoRec)
    (raws : List RawBlock) :
    ((xref_meta_list imgs infos raws).map MetaRec.xref).Nodup := by
  have hinv := merge_dict_inv imgs infos raws
  unfold xref_meta_list
  have h1 : ((merge_dict imgs infos raws).map Prod.snd).map MetaRec.xref
      = dict_keys (merge_dict imgs infos raws) := by
    rw [List.map_map]
    exact List.map_congr_left fun p hp => hinv.1 p hp
  have h2 : ((((merge_dict imgs infos raws).map Prod.snd).filter
        fun r => r.bbox.isSome).map MetaRec.xref).Sublist
      (((merge_dict imgs infos raws).map Prod.snd).map MetaRec.xref) :=
    List.Sublist.map _ (List.filter_sublist _)
  rw [h1] at h2
  exact List.Nodup.sublist h2 hinv.2


theorem oor_ne {α : Type} (z : α) (a b : Option α)
    (ha : a ≠ some z) (hb : b ≠ some z) : oor a b ≠ some z := by
  cases a with
  | none => exact hb
  | some v => exact ha

theorem spec_step1_xref (x : Int) :
    ∀ (es : List ImgEntry) (r : MetaRec), spec_step1 es x = some r → r.xref = x := by
  intro es
  induction es with
  | nil => intro r h; cases h
  | cons e rest ih =>
    intro r h
    simp only [spec_step1] at h
    cases h1 : spec_step1 rest x with
    | some r2 =>
      rw [h1] at h
      have h2 : r2 = r := Option.some.inj h
      rw [← h2]
      exact ih r2 h1
    | none =>
      rw [h1] at h
      by_cases he : e.xref = x
      · rw [if_pos he] at h
        rw [← Option.some.inj h]
        exact he
      · rw [if_neg he] at h; cases h

theorem spec_step1_bind_bbox (x : Int) :
    ∀ es : List ImgEntry, (spec_step1 es x).bind MetaRec.bbox = none := by
  intro es
  induction es with
  | nil => rfl
  | cons e rest ih =>
    simp only [spec_step1]
    cases h1 : spec_step1 rest x with
    | some r2 => rw [h1] at ih; simpa using ih
    | none => by_cases he : e.xref = x <;> simp [he, mk_entry_rec]

theorem spec_step1_bind_mask (x : Int) :
    ∀ es : List ImgEntry, (spec_step1 es x).bind MetaRec.mask = none := by
  intro es
  induction es with
  | nil => rfl
  | cons e rest ih =>
    simp only [spec_step1]
    cases h1 : spec_step1 rest x with
    | some r2 => rw [h1] at ih; simpa using ih
    | none => by_cases he : e.xref = x <;> simp [he, mk_entry_rec]

theorem spec_step1_smask_ne_zero (x : Int) :
    ∀ es : List ImgEntry, (spec_step1 es x).bind MetaRec.smask ≠ some 0 := by
  intro es
  induction es with
  | nil => intro h; cases h
  | cons e rest ih =>
    simp only [spec_step1]
    cases h1 : spec_step1 rest x with
    | some r2 => rw [h1] at ih; simpa using ih
    | none =>
      by_cases he : e.xref = x
      · by_cases hz : e.smask = 0 <;> simp [he, hz, mk_entry_rec]
      · simp [he]

theorem last_info_smask_ne_zero (x : Int) :
    ∀ rs : List InfoRec, last_info_smask rs x ≠ some 0 := by
  intro rs
  induction rs with
  | nil => intro h; cases h
  | cons r rest ih =>
    simp only [last_info_smask]
    refine oor_ne 0 _ _ ih ?_
    by_cases hc : r.xref = some x ∧ r.smask ≠ 0
    · simp only [if_pos hc]
      intro h
      exact hc.2 (Option.some.inj h)
    · simp [hc]

theorem last_info_mask_ne_zero (x : Int) :
    ∀ rs : List InfoRec, last_info_mask rs x ≠ some 0 := by
  intro rs
  induction rs with
  | nil => intro h; cases h
  | cons r rest ih =>
    simp only [last_info_mask]
    refine oor_ne 0 _ _ ih ?_
    by_cases hc : r.xref = some x ∧ r.mask ≠ 0
    · simp only [if_pos hc]
      intro h
      exact hc.2 (Option.some.inj h)
    · simp [hc]

theorem apply_info_cs (cur : Option MetaRec) (r : InfoRec) (x : Int) :
    (apply_info cur r x).bind MetaRec.cs = cur.bind MetaRec.cs := by
  unfold apply_info
  cases r.xref with
  | none => rfl
  | some y =>
    by_cases hy : y = x
    · simp only [if_pos hy]
      cases cur with
      | none => split_ifs <;> simp [blank_rec]
      | some c => split_ifs <;> simp
    · simp [hy]

theorem apply_info_smask (cur : Option MetaRec) (r : InfoRec) (x : Int) :
    (apply_info cur r x).bind MetaRec.smask =
      oor (if r.xref = some x ∧ r.smask ≠ 0 then some r.smask else none)
        (cur.bind MetaRec.smask) := by
  unfold apply_info
  cases hx : r.xref with
  | none =>
    have hc : ¬ ((none : Option Int) = some x ∧ r.smask ≠ 0) := fun h => by cases h.1
    simp [hc, oor]
  | some y =>
    by_cases hy : y = x
    · subst hy
      by_cases hs : r.smask ≠ 0
      · have hc : (some y : Option Int) = some y ∧ r.smask ≠ 0 := ⟨rfl, hs⟩
        simp only [if_pos rfl, if_pos hc, if_pos hs]
        cases cur with
        | none => split_ifs <;> simp_all [blank_rec, oor, Option.not_isSome_iff_eq_none]
        | some c => split_ifs <;> simp_all [oor, Option.not_isSome_iff_eq_none]
      · have hc : ¬ ((some y : Option Int) = some y ∧ r.smask ≠ 0) := fun h => hs h.2
        simp only [if_pos rfl, if_neg hc, if_neg hs]
        cases cur with
        | none => split_ifs <;> simp_all [blank_rec, oor, Option.not_isSome_iff_eq_none]
        | some c => split_ifs <;> simp_all [oor, Option.not_isSome_iff_eq_none]
    · have hc : ¬ ((some y : Option Int) = some x ∧ r.smask ≠ 0) := fun h => hy (Option.some.inj h.1)
      simp [hy, hc, oor]

theorem apply_info_mask (cur : Option MetaRec) (r : InfoRec) (x : Int) :
    (apply_info cur r x).bind MetaRec.mask =
      oor (if r.xref = some x ∧ r.mask ≠ 0 then some r.mask else none)
        (cur.bind MetaRec.mask) := by
  unfold apply_info
  cases hx : r.xref with
  | none =>
    have hc : ¬ ((none : Option Int) = some x ∧ r.mask ≠ 0) := fun h => by cases h.1
    simp [hc, oor]
  | some y =>
    by_cases hy : y = x
    · subst hy
      by_cases hm : r.mask ≠ 0
      · have hc : (some y : Option Int) = some y ∧ r.mask ≠ 0 := ⟨rfl, hm⟩
        simp only [if_pos rfl, if_pos hc, if_pos hm]
        cases cur with
        | none => split_ifs <;> simp_all [blank_rec, oor, Option.not_isSome_iff_eq_none]
        | some c => split_ifs <;> simp_all [oor, Option.not_isSome_iff_eq_none]
      · have hc : ¬ ((some y : Option Int) = some y ∧ r.mask ≠ 0) := fun h => hm h.2
        simp only [if_pos rfl, if_neg hc, if_neg hm]
        cases cur with
        | none => split_ifs <;> simp_all [blank_rec, oor, Option.not_isSome_iff_eq_none]
        | some c => split_ifs <;> simp_all [oor, Option.not_isSome_iff_eq_none]
    · have hc : ¬ ((some y : Option Int) = some x ∧ r.mask ≠ 0) := fun h => hy (Option.some.inj h.1)
      simp [hy, hc, oor]

theorem apply_info_bbox (cur : Option MetaRec) (r : InfoRec) (x : Int) :
    (apply_info cur r x).bind MetaRec.bbox =
      oor (if r.xref = some x ∧ r.bbox.isSome = true then r.bbox else none)
        (cur.bind MetaRec.bbox) := by
  unfold apply_info
  cases hx : r.xref with
  | none =>
    have hc : ¬ ((none : Option Int) = some x ∧ r.bbox.isSome = true) := fun h => by cases h.1
    simp [hc, oor]
  | some y =>
    by_cases hy : y = x
    · subst hy
      by_cases hb : r.bbox.isSome = true
      · have hc : (some y : Option Int) = some y ∧ r.bbox.isSome = true := ⟨rfl, hb⟩
        simp only [if_pos rfl, if_pos hc, if_pos hb]
        obtain ⟨v, hv⟩ := Option.isSome_iff_exists.mp hb
        cases cur with
        | none => split_ifs <;> simp_all [blank_rec, oor, hv, Option.not_isSome_iff_eq_none]
        | some c => split_ifs <;> simp_all [oor, hv, Option.not_isSome_iff_eq_none]
      · have hc : ¬ ((some y : Option Int) = some y ∧ r.bbox.isSome = true) := fun h => hb h.2
        simp only [if_pos rfl, if_neg hc, if_neg hb]
        cases cur with
        | none => split_ifs <;> simp_all [blank_rec, oor, Option.not_isSome_iff_eq_none]
        | some c => split_ifs <;> simp_all [oor, Option.not_isSome_iff_eq_none]
    · have hc : ¬ ((some y : Option Int) = some x ∧ r.bbox.isSome = true) := fun h => hy (Option.some.inj h.1)
      simp [hy, hc, oor]

theorem apply_raw_cs (cur : Option MetaRec) (b : RawBlock) (x : Int) :
    (apply_raw cur b x).bind MetaRec.cs = cur.bind MetaRec.cs := by
  unfold apply_raw
  split_ifs with ht
  · rfl
  · cases hk : raw_key b with
    | none => rfl
    | some y =>
      by_cases hy : y = x
      · simp only [if_pos hy]
        cases cur with
        | none => split_ifs <;> simp [blank_rec]
        | some c => split_ifs <;> simp
      · simp [hy]

theorem apply_raw_smask (cur : Option MetaRec) (b : RawBlock) (x : Int) :
    (apply_raw cur b x).bind MetaRec.smask = cur.bind MetaRec.smask := by
  unfold apply_raw
  split_ifs with ht
  · rfl
  · cases hk : raw_key b with
    | none => rfl
    | some y =>
      by_cases hy : y = x
      · simp only [if_pos hy]
        cases cur with
        | none => split_ifs <;> simp [blank_rec]
        | some c => split_ifs <;> simp
      · simp [hy]

theorem apply_raw_mask (cur : Option MetaRec) (b : RawBlock) (x : Int) :
    (apply_raw cur b x).bind MetaRec.mask = cur.bind MetaRec.mask := by
  unfold apply_raw
  split_ifs with ht
  · rfl
  · cases hk : raw_key b with
    | none => rfl
    | some y =>
      by_cases hy : y = x
      · simp only [if_pos hy]
        cases cur with
        | none => split_ifs <;> simp [blank_rec]
        | some c => split_ifs <;> simp
      · simp [hy]

theorem apply_raw_bbox (cur : Option MetaRec) (b : RawBlock) (x : Int) :
    (apply_raw cur b x).bind MetaRec.bbox =
      oor (cur.bind MetaRec.bbox)
        (if b.btype = some 1 ∧ raw_key b = some x ∧ b.bbox.isSome = true then b.bbox
         else none) := by
  unfold apply_raw
  by_cases ht : b.btype ≠ some 1
  · have hc : ¬ (b.btype = some 1 ∧ raw_key b = some x ∧ b.bbox.isSome = true) :=
      fun h => ht h.1
    simp [ht, hc, oor_none_right]
  · have ht2 : b.btype = some 1 := not_not.mp ht
    simp only [if_neg ht]
    cases hk : raw_key b with
    | none =>
      have hc : ¬ (b.btype = some 1 ∧ raw_key b = some x ∧ b.bbox.isSome = true) :=
        fun h => by rw [hk] at h; cases h.2.1
      simp [hc, oor_none_right]
    | some y =>
      by_cases hy : y = x
      · subst hy
        by_cases hb : b.bbox.isSome = true
        · have hc : b.btype = some 1 ∧ raw_key b = some y ∧ b.bbox.isSome = true :=
            ⟨ht2, hk, hb⟩
          simp only [if_pos rfl, if_pos hc]
          obtain ⟨v, hv⟩ := Option.isSome_iff_exists.mp hb
          cases cur with
          | none => split_ifs <;> simp_all [blank_rec, oor, hv]
          | some c =>
            split_ifs <;> cases hcb : c.bbox <;>
              simp_all [oor, hv, Option.not_isSome_iff_eq_none]
        · have hc : ¬ (b.btype = some 1 ∧ raw_key b = some y ∧ b.bbox.isSome = true) :=
            fun h => hb h.2.2
          simp only [if_pos rfl, if_neg hc]
          cases cur with
          | none => split_ifs <;> simp_all [blank_rec, oor, Option.not_isSome_iff_eq_none]
          | some c =>
            split_ifs <;> cases hcb : c.bbox <;>
              simp_all [oor, Option.not_isSome_iff_eq_none]
      · have hc : ¬ (b.btype = some 1 ∧ raw_key b = some x ∧ b.bbox.isSome = true) :=
          fun h => hy (Option.some.inj (hk.symm.trans h.2.1))
        simp [hy, hc, oor_none_right]

theorem spec_step2_cs (x : Int) :
    ∀ (rs : List InfoRec) (cur : Option MetaRec),
      (spec_step2 cur rs x).bind MetaRec.cs = cur.bind MetaRec.cs := by
  intro rs
  induction rs with
  | nil => intro cur; rfl
  | cons r rest ih =>
    intro cur
    simp only [spec_step2]
    rw [ih, apply_info_cs]

theorem spec_step2_smask (x : Int) :
    ∀ (rs : List InfoRec) (cur : Option MetaRec),
      (spec_step2 cur rs x).bind MetaRec.smask =
        oor (last_info_smask rs x) (cur.bind MetaRec.smask) := by
  intro rs
  induction rs with
  | nil => intro cur; simp [spec_step2, last_info_smask, oor]
  | cons r rest ih =>
    intro cur
    simp only [spec_step2, last_info_smask]
    rw [ih, apply_info_smask, oor_assoc]

theorem spec_step2_mask (x : Int) :
    ∀ (rs : List InfoRec) (cur : Option MetaRec),
      (spec_step2 cur rs x).bind MetaRec.mask =
        oor (last_info_mask rs x) (cur.bind MetaRec.mask) := by
  intro rs
  induction rs with
  | nil => intro cur; simp [spec_step2, last_info_mask, oor]
  | cons r rest ih =>
    intro cur
    simp only [spec_step2, last_info_mask]
    rw [ih, apply_info_mask, oor_assoc]

theorem spec_step2_bbox (x : Int) :
    ∀ (rs : List InfoRec) (cur : Option MetaRec),
      (spec_step2 cur rs x).bind MetaRec.bbox =
        oor (last_info_bbox rs x) (cur.bind MetaRec.bbox) := by
  intro rs
  induction rs with
  | nil => intro cur; simp [spec_step2, last_info_bbox, oor]
  | cons r rest ih =>
    intro cur
    simp only [spec_step2, last_info_bbox]
    rw [ih, apply_info_bbox, oor_assoc]

theorem spec_step3_cs (x : Int) :
    ∀ (bs : List RawBlock) (cur : Option MetaRec),
      (spec_step3 cur bs x).bind MetaRec.cs = cur.bind MetaRec.cs := by
  intro bs
  induction bs with
  | nil => intro cur; rfl
  | cons b rest ih =>
    intro cur
    simp only [spec_step3]
    rw [ih, apply_raw_cs]

theorem spec_step3_smask (x : Int) :
    ∀ (bs : List RawBlock) (cur : Option MetaRec),
      (spec_step3 cur bs x).bind MetaRec.smask = cur.bind MetaRec.smask := by
  intro bs
  induction bs with
  | nil => intro cur; rfl
  | cons b rest ih =>
    intro cur
    simp only [spec_step3]
    rw [ih, apply_raw_smask]

theorem spec_step3_mask (x : Int) :
    ∀ (bs : List RawBlock) (cur : Option MetaRec),
      (spec_step3 cur bs x).bind MetaRec.mask = cur.bind MetaRec.mask := by
  intro bs
  induction bs with
  | nil => intro cur; rfl
  | cons b rest ih =>
    intro cur
    simp only [spec_step3]
    rw [ih, apply_raw_mask]

theorem spec_step3_bbox (x : Int) :
    ∀ (bs : List RawBlock) (cur : Option MetaRec),
      (spec_step3 cur bs x).bind MetaRec.bbox =
        oor (cur.bind MetaRec.bbox) (first_raw_bbox bs x) := by
  intro bs
  induction bs with
  | nil => intro cur; simp [spec_step3, first_raw_bbox, oor_none_right]
  | cons b rest ih =>
    intro cur
    simp only [spec_step3, first_raw_bbox]
    rw [ih, apply_raw_bbox, oor_assoc]
    congr 1
    by_cases hc : b.btype = some 1 ∧ raw_key b = some x ∧ b.bbox.isSome = true
    · obtain ⟨v, hv⟩ := Option.isSome_iff_exists.mp hc.2.2
      simp [hc, hv, oor]
    · simp [hc, oor]

theorem apply_info_xref (cur : Option MetaRec) (r : InfoRec) (x : Int)
    (h : ∀ c, cur = some c → c.xref = x) :
    ∀ c', apply_info cur r x = some c' → c'.xref = x := by
  intro c' hc
  unfold apply_info at hc
  cases hx : r.xref with
  | none => rw [hx] at hc; exact h c' hc
  | some y =>
    rw [hx] at hc
    dsimp only at hc
    by_cases hy : y = x
    · rw [if_pos hy] at hc
      rw [← Option.some.inj hc]
      cases cur with
      | none => split_ifs <;> simp [blank_rec]
      | some c => split_ifs <;> simp [h c rfl]
    · rw [if_neg hy] at hc
      exact h c' hc

theorem spec_step2_xref (x : Int) :
    ∀ (rs : List InfoRec) (cur : Option MetaRec),
      (∀ c, cur = some c → c.xref = x) →
      ∀ c', spec_step2 cur rs x = some c' → c'.xref = x := by
  intro rs
  induction rs with
  | nil => intro cur h c' hc; exact h c' hc
  | cons r rest ih =>
    intro cur h c' hc
    simp only [spec_step2] at hc
    exact ih (apply_info cur r x) (apply_info_xref cur r x h) c' hc

theorem apply_raw_xref (cur : Option MetaRec) (b : RawBlock) (x : Int)
    (h : ∀ c, cur = some c → c.xref = x) :
    ∀ c', apply_raw cur b x = some c' → c'.xref = x := by
  intro c' hc
  unfold apply_raw at hc
  split_ifs at hc with ht
  · exact h c' hc
  · cases hk : raw_key b with
    | none => rw [hk] at hc; exact h c' hc
    | some y =>
      rw [hk] at hc
      dsimp only at hc
      by_cases hy : y = x
      · rw [if_pos hy] at hc
        rw [← Option.some.inj hc]
        cases cur with
        | none => split_ifs <;> simp [blank_rec]
        | some c => split_ifs <;> simp [h c rfl]
      · rw [if_neg hy] at hc
        exact h c' hc

theorem spec_step3_xref (x : Int) :
    ∀ (bs : List RawBlock) (cur : Option MetaRec),
      (∀ c, cur = some c → c.xref = x) →
      ∀ c', spec_step3 cur bs x = some c' → c'.xref = x := by
  intro bs
  induction bs with
  | nil => intro cur h c' hc; exact h c' hc
  | cons b rest ih =>
    intro cur h c' hc
    simp only [spec_step3] at hc
    exact ih (apply_raw cur b x) (apply_raw_xref cur b x h) c' hc

theorem merge_spec_xref (imgs : List ImgEntry) (infos : List InfoRec) (raws : List RawBlock)
    (x : Int) (rec : MetaRec) : merge_spec imgs infos raws x = some rec → rec.xref = x := by
  intro h
  unfold merge_spec at h
  exact spec_step3_xref x raws _
    (spec_step2_xref x infos _ (fun c hc => spec_step1_xref x imgs c hc)) rec h

theorem merge_spec_fields (imgs : List ImgEntry) (infos : List InfoRec) (raws : List RawBlock)
    (x : Int) (rec : MetaRec) (h : merge_spec imgs infos raws x = some rec) :
    rec.bbox = oor (last_info_bbox infos x) (first_raw_bbox raws x) ∧
    rec.smask = oor (last_info_smask infos x) ((spec_step1 imgs x).bind MetaRec.smask) ∧
    rec.mask = last_info_mask infos x ∧
    rec.cs = (spec_step1 imgs x).bind MetaRec.cs := by
  have hb : rec.bbox = (merge_spec imgs infos raws x).bind MetaRec.bbox := by rw [h]; rfl
  have hs : rec.smask = (merge_spec imgs infos raws x).bind MetaRec.smask := by rw [h]; rfl
  have hm : rec.mask = (merge_spec imgs infos raws x).bind MetaRec.mask := by rw [h]; rfl
  have hc : rec.cs = (merge_spec imgs infos raws x).bind MetaRec.cs := by rw [h]; rfl
  unfold merge_spec at hb hs hm hc
  rw [spec_step3_bbox, spec_step2_bbox, spec_step1_bind_bbox, oor_none_right] at hb
  rw [spec_step3_smask, spec_step2_smask] at hs
  rw [spec_step3_mask, spec_step2_mask, spec_step1_bind_mask, oor_none_right] at hm
  rw [spec_step3_cs, spec_step2_cs] at hc
  exact ⟨hb, hs, hm, hc⟩

theorem xref_meta_list_smask_ne_zero (imgs : List ImgEntry) (infos : List InfoRec)
    (raws : List RawBlock) (rec : MetaRec) (h : rec ∈ xref_meta_list imgs infos raws) :
    rec.smask ≠ some 0 ∧ rec.mask ≠ some 0 := by
  have hm := (mem_xref_meta_list imgs infos raws rec).mp h
  have hf := merge_spec_fields imgs infos raws rec.xref rec hm.1
  constructor
  · rw [hf.2.1]
    exact oor_ne 0 _ _ (last_info_smask_ne_zero rec.xref infos)
      (spec_step1_smask_ne_zero rec.xref imgs)
  · rw [hf.2.2.1]
    exact last_info_mask_ne_zero rec.xref infos

theorem png_dataurl_ne_empty (env : FitzEnv) (p : Pix) : png_dataurl env p ≠ "" := by
  unfold png_dataurl
  intro h
  have h2 := congrArg String.length h
  rw [String.length_append] at h2
  have h3 : ("data:image/png;base64," : String).length = 22 := by decide
  have h4 : ("" : String).length = 0 := by decide
  rw [h3, h4] at h2
  omega

theorem render_images_error_of_mem (env : FitzEnv) (clipf : BBox → ℚ → Except Unit Pix)
    (image_mode : String) (scale clip_oversample : ℚ) :
    ∀ (metas : List MetaRec) (meta : MetaRec), meta ∈ metas →
      render_image env clipf meta image_mode scale clip_oversample = .error () →
      render_images env clipf metas image_mode scale clip_oversample = .error () := by
  intro metas
  induction metas with
  | nil => intro meta h; cases h
  | cons m rest ih =>
    intro meta hmem herr
    rcases List.mem_cons.mp hmem with h | h
    · subst h
      simp only [render_images]
      rw [herr]
    · simp only [render_images]
      cases hm : render_image env clipf m image_mode scale clip_oversample with
      | error e => cases e; rfl
      | ok o =>
        rw [ih meta h herr]

theorem render_span_isSome (scale : ℚ) (sp : Span) :
    (render_span scale sp).isSome = decide (sp.text.getD "" ≠ "") := by
  unfold render_span
  by_cases h : sp.text.getD "" = "" <;> simp [h]

theorem length_filterMap_count {α β : Type} (f : α → Option β) (p : α → Bool)
    (hf : ∀ a, (f a).isSome = p a) :
    ∀ l : List α, (l.filterMap f).length = l.countP p := by
  intro l
  induction l with
  | nil => rfl
  | cons a rest ih =>
    have ha := hf a
    cases hfa : f a with
    | none =>
      rw [hfa] at ha
      simp only [List.filterMap_cons, hfa, List.countP_cons, ← ha]
      simpa using ih
    | some b =>
      rw [hfa] at ha
      simp only [List.filterMap_cons, hfa, List.countP_cons, ← ha]
      simp [ih]

theorem render_pages_forall2 (env : FitzEnv) (scale : ℚ) (image_mode : String)
    (clip_oversample : ℚ) (debug : Bool) :
    ∀ (pages : List PageData) (bodies : List String),
      render_pages env pages scale image_mode clip_oversample debug = .ok bodies →
      List.Forall₂ (fun pg body => ∃ images_html,
        render_images env pg.clip (xref_meta_list pg.imgs pg.infos pg.raws)
          image_mode scale clip_oversample = .ok images_html ∧
        body = section_html pg.width pg.height scale
          (page_spans_html scale pg.blocks) images_html) pages bodies := by
  intro pages
  induction pages with
  | nil =>
    intro bodies h
    simp only [render_pages] at h
    rw [← Except.ok.inj h]
    exact List.Forall₂.nil
  | cons pg rest ih =>
    intro bodies h
    simp only [render_pages] at h
    cases hp : render_page_html env pg scale image_mode clip_oversample debug with
    | error e => rw [hp] at h; cases h
    | ok body =>
      rw [hp] at h
      cases hr : render_pages env rest scale image_mode clip_oversample debug with
      | error e => rw [hr] at h; cases h
      | ok tail =>
        rw [hr] at h
        rw [← Except.ok.inj h]
        refine List.Forall₂.cons ?_ (ih tail hr)
        unfold render_page_html at hp
        cases hi : render_images env pg.clip (xref_meta_list pg.imgs pg.infos pg.raws)
            image_mode scale clip_oversample with
        | error e => rw [hi] at hp; cases hp
        | ok images_html =>
          rw [hi] at hp
          exact ⟨images_html, rfl, (Except.ok.inj hp).symm⟩

/-- C2 counterexample: `main` writes the output with a direct
`args.output.write_text(html_out)` (pdf_to_html.py line 294), and
`save_html_to_uploads` likewise calls `write_text` directly (api/utils.py
line 194); there is no temporary path and no rename.  A write of `"NEW"`
over previous contents `"OLD"` that stops after one character leaves the
destination holding `"N"` — neither absent, nor the previous complete
contents, nor the new contents — refuting the claimed atomic-rename
behaviour. -/
theorem atomic_write_cex :
    main_write (some "OLD") "NEW" (some 1) = some "N" ∧
    main_write (some "OLD") "NEW" (some 1) ≠ some "OLD" ∧
    main_write (some "OLD") "NEW" (some 1) ≠ none ∧
    main_write (some "OLD") "NEW" (some 1) ≠ some "NEW" := by
  refine ⟨by decide, by decide, by decide, by decide⟩

/-- C2 amended: the file-writing variant writes the HTML directly to the
destination path; a completed write leaves the new content, and a write
stopped after `k` characters leaves exactly the first `k` characters of the
new content — always a prefix of the new content, regardless of the
destination's prior state (which is truncated away at open time). -/
theorem write_direct_behavior (prev : Option String) (content : String) (k : Nat) :
    main_write prev content none = some content ∧
    main_write prev content (some k) = some (write_text_stopped content k) ∧
    (write_text_stopped content k).toList <+: content.toList := by
  refine ⟨rfl, rfl, ?_⟩
  exact ⟨content.toList.drop k, List.take_append_drop k content.toList⟩

/-- C9: the renderer is a pure function of the opened document and the
options — two runs on equal inputs return byte-identical HTML.  The
embedding of the whole render path needed no clock, counter or randomness
input: every varying quantity in the output is derived from the document
data and the options. -/
theorem pdf_to_html_deterministic (opened1 opened2 : Except Unit (List PageData × FitzEnv))
    (stem : String) (scale : ℚ) (image_mode : String) (clip_oversample : ℚ) (debug : Bool)
    (h : opened1 = opened2) :
    pdf_to_html opened1 stem scale image_mode clip_oversample debug =
      pdf_to_html opened2 stem scale image_mode clip_oversample debug := by
  rw [h]

/-- C9 witness at a concrete document. -/
theorem pdf_to_html_deterministic_witness :
    pdf_to_html (.ok ([page_empty], env_ok)) "t" 1 "auto" 2 false =
      pdf_to_html (.ok ([page_empty], env_ok)) "t" 1 "auto" 2 false :=
  pdf_to_html_deterministic (.ok ([page_empty], env_ok)) (.ok ([page_empty], env_ok))
    "t" 1 "auto" 2 false rfl

/-- C10: an `image_mode` outside `{"auto", "extract", "clip"}` makes
`pdf_to_html` fail with the assertion error before the document is consulted
(the result is the assertion error whatever opening would have produced),
and no HTML is returned; every mode in the set passes the assertion — the
call never fails with the assertion error. -/
theorem pdf_to_html_image_mode_assert (opened : Except Unit (List PageData × FitzEnv))
    (stem : String) (scale : ℚ) (image_mode : String) (clip_oversample : ℚ) (debug : Bool) :
    (image_mode ≠ "auto" → image_mode ≠ "extract" → image_mode ≠ "clip" →
      pdf_to_html opened stem scale image_mode clip_oversample debug =
        .error PyErr.assertion) ∧
    ((image_mode = "auto" ∨ image_mode = "extract" ∨ image_mode = "clip") →
      pdf_to_html opened stem scale image_mode clip_oversample debug ≠
        .error PyErr.assertion) := by
  constructor
  · intro h1 h2 h3
    unfold pdf_to_html
    rw [if_neg]
    rintro (h | h | h)
    · exact h1 h
    · exact h2 h
    · exact h3 h
  · intro hm
    unfold pdf_to_html
    rw [if_pos hm]
    cases opened with
    | error e => intro h; exact PyErr.noConfusion (Except.error.inj h)
    | ok pe =>
      obtain ⟨pages, env⟩ := pe
      dsimp only
      cases hr : render_pages env pages scale image_mode clip_oversample debug with
      | error e => intro h; exact PyErr.noConfusion (Except.error.inj h)
      | ok bodies => intro h; exact Except.noConfusion h

/-- C10 witness: a bogus mode is rejected by the assertion, `"auto"` is not. -/
theorem pdf_to_html_image_mode_assert_witness :
    pdf_to_html (.ok ([page_empty], env_ok)) "d" 1 "bogus" 2 false =
      .error PyErr.assertion ∧
    pdf_to_html (.ok ([page_empty], env_ok)) "d" 1 "auto" 2 false ≠
      .error PyErr.assertion := by
  constructor
  · exact (pdf_to_html_image_mode_assert (.ok ([page_empty], env_ok)) "d" 1 "bogus" 2
      false).1 (by decide) (by decide) (by decide)
  · exact (pdf_to_html_image_mode_assert (.ok ([page_empty], env_ok)) "d" 1 "auto" 2
      false).2 (Or.inl rfl)

/-- C5: every pixmap either image path hands to the PNG encoder is opaque
3-channel RGB: whatever `_pixmap_from_xref_safely` returns has no alpha and
colorspace channel count 3 (any remaining alpha is flattened by the final
RGB conversion), and whatever `_render_clip` returns likewise (rasterised
with `alpha=False` and converted when needed).  PyMuPDF's RGB conversion is
modelled from the spec as flattening onto opaque white. -/
theorem pixmap_paths_opaque (env : FitzEnv) (clipf : BBox → ℚ → Except Unit Pix)
    (xref : Int) (smask_xref mask_xref : Option Int) (bb : BBox) (osamp : ℚ) (p q : Pix)
    (hp : pixmap_from_xref_safely env xref smask_xref mask_xref = some p)
    (hq : render_clip_px clipf bb osamp = .ok q) :
    p.alpha = false ∧ p.csN = some 3 ∧ q.alpha = false ∧ q.csN = some 3 := by
  have hextract : p.alpha = false ∧ p.csN = some 3 := by
    unfold pixmap_from_xref_safely at hp
    cases hl : env.loadPix xref with
    | error e => rw [hl] at hp; cases hp
    | ok base0 =>
      rw [hl] at hp
      dsimp only at hp
      rw [← Option.some.inj hp]
      split_ifs <;> simp_all [convert_rgb]
  have hclip : q.alpha = false ∧ q.csN = some 3 := by
    unfold render_clip_px at hq
    cases hc : clipf bb osamp with
    | error e => rw [hc] at hq; cases hq
    | ok pix =>
      rw [hc] at hq
      dsimp only at hq
      rw [← Except.ok.inj hq]
      by_cases h1 : ¬ pix.csN = some 3 ∨ pix.alpha = true
      · rw [if_pos h1]; exact ⟨rfl, rfl⟩
      · rw [if_neg h1]
        push_neg at h1
        exact ⟨by simpa using h1.2, h1.1⟩
  exact ⟨hextract.1, hextract.2, hclip.1, hclip.2⟩

/-- C5 witness on a concrete successful environment. -/
theorem pixmap_paths_opaque_witness :
    pixRGB.alpha = false ∧ pixRGB.csN = some 3 ∧ pixRGB.alpha = false ∧
      pixRGB.csN = some 3 :=
  pixmap_paths_opaque env_ok clip_ok 1 none none (0, 0, 1, 1) 2 pixRGB pixRGB rfl rfl

/-- C3: for every record `_xref_meta_list` resolves, `_should_clip` decides
clip always when `image_mode = "clip"`, extract always when
`image_mode = "extract"`, and under `"auto"` decides clip exactly when the
record carries a non-null soft-mask or hard-mask reference or its colorspace
tag contains `CMYK` or `ICC` as a case-insensitive substring. -/
theorem should_clip_auto_spec (imgs : List ImgEntry) (infos : List InfoRec)
    (raws : List RawBlock) (image_mode : String) (meta : MetaRec)
    (h : meta ∈ xref_meta_list imgs infos raws) :
    (image_mode = "clip" → should_clip meta image_mode = true) ∧
    (image_mode = "extract" → should_clip meta image_mode = false) ∧
    (image_mode = "auto" →
      (should_clip meta image_mode = true ↔
        meta.smask.isSome = true ∨ meta.mask.isSome = true ∨
        ci_contains "CMYK" (meta.cs.getD "") = true ∨
        ci_contains "ICC" (meta.cs.getD "") = true)) := by
  have hz := xref_meta_list_smask_ne_zero imgs infos raws meta h
  refine ⟨?_, ?_, ?_⟩
  · intro hm; subst hm; rfl
  · intro hm; subst hm; rfl
  · intro hm; subst hm
    have h1 : py_truthy meta.smask = meta.smask.isSome := by
      cases hs : meta.smask with
      | none => rfl
      | some v =>
        have hv : v ≠ 0 := fun hv0 => hz.1 (by rw [hs, hv0])
        simp [py_truthy, hv]
    have h2 : py_truthy meta.mask = meta.mask.isSome := by
      cases hs : meta.mask with
      | none => rfl
      | some v =>
        have hv : v ≠ 0 := fun hv0 => hz.2 (by rw [hs, hv0])
        simp [py_truthy, hv]
    have h3 : ci_contains "CMYK" (meta.cs.getD "")
        = contains_sub "CMYK" (str_upper (meta.cs.getD "")) := by
      unfold ci_contains
      rw [show (str_upper "CMYK") = "CMYK" from by decide]
    have h4 : ci_contains "ICC" (meta.cs.getD "")
        = contains_sub "ICC" (str_upper (meta.cs.getD "")) := by
      unfold ci_contains
      rw [show (str_upper "ICC") = "ICC" from by decide]
    unfold should_clip
    rw [if_neg (by decide), if_neg (by decide)]
    dsimp only
    rw [h3, h4, ← h1, ← h2]
    cases hb1 : py_truthy meta.smask <;> cases hb2 : py_truthy meta.mask <;>
      cases hb3 : contains_sub "CMYK" (str_upper (meta.cs.getD "")) <;>
      cases hb4 : contains_sub "ICC" (str_upper (meta.cs.getD "")) <;>
      simp [hb1, hb2, hb3, hb4]

/-- C3 witness: the record resolved from `imgs_c4`/`infos_c4` (soft-mask 7)
under each mode. -/
theorem should_clip_auto_spec_witness :
    ("auto" = "clip" → should_clip meta_c4 "auto" = true) ∧
    ("auto" = "extract" → should_clip meta_c4 "auto" = false) ∧
    ("auto" = "auto" →
      (should_clip meta_c4 "auto" = true ↔
        meta_c4.smask.isSome = true ∨ meta_c4.mask.isSome = true ∨
        ci_contains "CMYK" (meta_c4.cs.getD "") = true ∨
        ci_contains "ICC" (meta_c4.cs.getD "") = true)) :=
  should_clip_auto_spec imgs_c4 infos_c4 [] "auto" meta_c4 (by decide)

/-- C4 counterexample: with page-list soft-mask 5 and image-info soft-mask 7
for the same identifier, the merged record holds 7 (the image-info value
overwrites), while the claimed "first non-null value found" is 5; a single
field also cannot hold the claimed union of both values. -/
theorem merge_smask_precedence_cex :
    (xref_meta_list imgs_c4 infos_c4 []).map MetaRec.smask = [some 7] ∧
    claimed_first_smask imgs_c4 infos_c4 1 = some 5 ∧
    ¬ ((xref_meta_list imgs_c4 infos_c4 []).map MetaRec.smask
        = [claimed_first_smask imgs_c4 infos_c4 1]) := by
  refine ⟨by decide, by decide, by decide⟩

/-- C4 amended: the three sources are merged into at most one record per
identifier (the output's identifiers are pairwise distinct); every emitted
record has a bounding box, taken from the image-info source (last located
value) when present and otherwise from the raw dictionary (first located
value); the soft-mask is the image-info source's last truthy value when
present there, otherwise the page-level list's value; the hard-mask can come
only from the image-info source; the colorspace tag comes from the
page-level image list; and every per-identifier merge result that has a
bounding box appears in the output. -/
theorem xref_meta_merge_amended (imgs : List ImgEntry) (infos : List InfoRec)
    (raws : List RawBlock) :
    ((xref_meta_list imgs infos raws).map MetaRec.xref).Nodup ∧
    (∀ rec ∈ xref_meta_list imgs infos raws,
      rec.bbox.isSome = true ∧
      rec.bbox = oor (last_info_bbox infos rec.xref) (first_raw_bbox raws rec.xref) ∧
      rec.smask = oor (last_info_smask infos rec.xref)
        ((spec_step1 imgs rec.xref).bind MetaRec.smask) ∧
      rec.mask = last_info_mask infos rec.xref ∧
      rec.cs = (spec_step1 imgs rec.xref).bind MetaRec.cs) ∧
    (∀ (x : Int) (rec : MetaRec), merge_spec imgs infos raws x = some rec →
      rec.bbox.isSome = true → rec ∈ xref_meta_list imgs infos raws) := by
  refine ⟨xref_meta_list_keys_nodup imgs infos raws, ?_, ?_⟩
  · intro rec hrec
    have hm := (mem_xref_meta_list imgs infos raws rec).mp hrec
    have hf := merge_spec_fields imgs infos raws rec.xref rec hm.1
    exact ⟨hm.2, hf.1, hf.2.1, hf.2.2.1, hf.2.2.2⟩
  · intro x rec hs hb
    have hx : rec.xref = x := merge_spec_xref imgs infos raws x rec hs
    refine (mem_xref_meta_list imgs infos raws rec).mpr ⟨?_, hb⟩
    rw [hx]
    exact hs

/-- C4 witness on the concrete two-source merge. -/
theorem xref_meta_merge_amended_witness :
    meta_c4.bbox.isSome = true ∧
    meta_c4.smask = oor (last_info_smask infos_c4 meta_c4.xref)
      ((spec_step1 imgs_c4 meta_c4.xref).bind MetaRec.smask) ∧
    ((xref_meta_list imgs_c4 infos_c4 []).map MetaRec.xref).Nodup := by
  have h := xref_meta_merge_amended imgs_c4 infos_c4 []
  have h2 := h.2.1 meta_c4 (by decide)
  exact ⟨h2.1, h2.2.2.1, h.1⟩

/-- C8 counterexample: a span with non-empty text and no bounding box at all
is not skipped — the renderer substitutes the default box `(0, 0, 0, 0)` and
emits the div anyway. -/
theorem span_missing_bbox_not_skipped_cex :
    render_span 1 span_nobbox ≠ none ∧ span_nobbox.bbox = none ∧
      span_nobbox.text = some "x" := by
  refine ⟨?_, rfl, rfl⟩
  rw [Option.ne_none_iff_isSome, render_span_isSome]
  decide

/-- C8 amended: image regions whose scaled width or height is ≤ 0 are
skipped silently (`.ok none`, no error); a span is skipped only when its
text is empty — a span with a missing bounding box is still emitted, at the
default box `(0, 0, 0, 0)`; none of these cases raises an error. -/
theorem degenerate_elements_amended (env : FitzEnv) (clipf : BBox → ℚ → Except Unit Pix)
    (meta : MetaRec) (image_mode : String) (scale clip_oversample : ℚ)
    (x0 y0 x1 y1 : ℚ) (sp sp2 : Span)
    (hbb : meta.bbox = some (x0, y0, x1, y1))
    (hdeg : (x1 - x0) * scale ≤ 0 ∨ (y1 - y0) * scale ≤ 0)
    (hsp : sp.text.getD "" ≠ "")
    (hsp2 : sp2.text.getD "" = "") :
    render_image env clipf meta image_mode scale clip_oversample = .ok none ∧
    (render_span scale sp).isSome = true ∧
    render_span scale sp2 = none := by
  refine ⟨?_, ?_, ?_⟩
  · unfold render_image
    rw [hbb]
    dsimp only
    rw [if_pos hdeg]
  · rw [render_span_isSome]
    simpa using hsp
  · unfold render_span
    rw [if_pos hsp2]

/-- C8 witness: a zero-width image region, a span without a bbox, a span
without text. -/
theorem degenerate_elements_amended_witness :
    render_image env_ok clip_ok meta_deg "auto" 1 2 = .ok none ∧
    (render_span 1 span_nobbox).isSome = true ∧
    render_span 1 span_empty = none :=
  degenerate_elements_amended env_ok clip_ok meta_deg "auto" 1 2 0 0 0 5
    span_nobbox span_empty rfl (by norm_num) (by decide) (by decide)

theorem fmt3_at_12 : fmt3 ((12 : ℚ) * 1) = "12.000" := by
  have hq : ((12 : ℚ) * 1) * (10 : ℚ) ^ 3 = 12000 := by norm_num
  have hf : (⌊(12000 : ℚ)⌋ : ℤ) = 12000 := by
    rw [show (12000 : ℚ) = ((12000 : ℤ) : ℚ) from by norm_num]
    exact Int.floor_intCast 12000
  have hr : round_half_even (((12 : ℚ) * 1) * (10 : ℚ) ^ 3) = 12000 := by
    unfold round_half_even
    dsimp only
    rw [hq, hf]
    rw [if_pos]
    push_cast
    norm_num
  unfold fmt3 fmt_fixed
  dsimp only
  rw [hr]
  rw [if_neg (show ¬ ((12 : ℚ) * 1 < 0) from by norm_num)]
  decide

/-- C6: every span with non-empty text yields exactly one absolutely
positioned `div class="t"`: left `x0·scale` and top `y0·scale` at two
decimals, font-size `size·scale` at three decimals (so size 12 at scale 1
gives `font-size:12.000px`), color `rgb(r,g,b)` with `r=(c>>16)&255`,
`g=(c>>8)&255`, `b=c&255`, bold weight exactly when the lowercased font name
contains one of `bold|semibold|demi|black|heavy`, italic style exactly for
`italic|oblique|ital`, and the text with carriage returns removed and `&<>`
escaped while quotes are preserved; a page's text layer holds exactly one
such div per non-empty-text span of its type-0 blocks. -/
theorem render_span_spec (scale : ℚ) (sp : Span) (t : String) (blocks : List TBlock)
    (h1 : sp.text = some t) (h2 : t ≠ "") :
    render_span scale sp =
      some ("<div class=\"t\" style=\""
        ++ String.intercalate ";"
          ((["left:" ++ fmt2 ((sp.bbox.getD (0, 0, 0, 0)).1 * scale) ++ "px",
             "top:" ++ fmt2 ((sp.bbox.getD (0, 0, 0, 0)).2.1 * scale) ++ "px",
             "font-size:" ++ fmt3 (sp.size.getD 12 * scale) ++ "px",
             "color:" ++ ("rgb(" ++ toString ((sp.color.getD 0 >>> 16) &&& 255) ++ ","
               ++ toString ((sp.color.getD 0 >>> 8) &&& 255) ++ ","
               ++ toString (sp.color.getD 0 &&& 255) ++ ")"),
             "font-family:" ++ html_escape true (sp.font.getD "sans-serif")]
            ++ (if ["bold", "semibold", "demi", "black", "heavy"].any
                  (fun k => contains_sub k (str_lower (sp.font.getD "sans-serif"))) then
                 ["font-weight:700"] else [])
            ++ (if ["italic", "oblique", "ital"].any
                  (fun k => contains_sub k (str_lower (sp.font.getD "sans-serif"))) then
                 ["font-style:italic"] else [])))
        ++ "\">" ++ html_escape false (strip_cr t) ++ "</div>") ∧
    (page_spans_html scale blocks).length =
      (((blocks.filter fun b => decide (b.btype = some 0)).flatMap
          fun b => b.lines.flatten).countP fun sp2 => decide (sp2.text.getD "" ≠ "")) ∧
    fmt3 ((12 : ℚ) * 1) = "12.000" := by
  refine ⟨?_, ?_, fmt3_at_12⟩
  · have ht : sp.text.getD "" = t := by rw [h1]; rfl
    unfold render_span
    dsimp only
    rw [ht, if_neg h2]
    rfl
  · unfold page_spans_html
    exact length_filterMap_count (render_span scale) _ (render_span_isSome scale) _

/-- C6 witness: the spec's `Hello` scenario at scale 1. -/
theorem render_span_spec_witness :
    (render_span 1 span_hello).isSome = true ∧
    (page_spans_html 1 blocks_hello).length = 1 ∧
    fmt3 ((12 : ℚ) * 1) = "12.000" := by
  have h := render_span_spec 1 span_hello "Hello" blocks_hello rfl (by decide)
  refine ⟨?_, ?_, h.2.2⟩
  · rw [h.1]; rfl
  · rw [h.2.1]; decide

/-- C7: a successful `pdf_to_html` output is the fixed HTML shell around one
`<section class="page" style="width:{W}px;height:{H}px">` block per page —
the page blocks list corresponds one-to-one and in order with the pages, and
each block is exactly the page's two-layer section: the text layer of the
page's spans followed by the image layer, with `W`/`H` the point-space
dimensions times the scale.  A page with no text and no images renders as a
section whose two layer divs are both empty. -/
theorem pdf_to_html_sections (env : FitzEnv) (pages : List PageData) (stem : String)
    (scale : ℚ) (image_mode : String) (clip_oversample : ℚ) (debug : Bool) (out : String)
    (h : pdf_to_html (.ok (pages, env)) stem scale image_mode clip_oversample debug
      = .ok out) :
    (∃ bodies : List String,
      render_pages env pages scale image_mode clip_oversample debug = .ok bodies ∧
      out = html_shell (html_escape true stem) (String.intercalate "\n" bodies) ∧
      List.Forall₂ (fun pg body => ∃ images_html,
        render_images env pg.clip (xref_meta_list pg.imgs pg.infos pg.raws)
          image_mode scale clip_oversample = .ok images_html ∧
        body = section_html pg.width pg.height scale
          (page_spans_html scale pg.blocks) images_html) pages bodies) ∧
    (∀ (w ht : ℚ) (clipf : BBox → ℚ → Except Unit Pix),
      render_page_html env ⟨w, ht, [], [], [], [], clipf⟩ scale image_mode
        clip_oversample debug = .ok (section_html w ht scale [] [])) := by
  constructor
  · unfold pdf_to_html at h
    split_ifs at h with hm
    · dsimp only at h
      cases hr : render_pages env pages scale image_mode clip_oversample debug with
      | error e => rw [hr] at h; cases h
      | ok bodies =>
        rw [hr] at h
        exact ⟨bodies, rfl, (Except.ok.inj h).symm,
          render_pages_forall2 env scale image_mode clip_oversample debug pages bodies hr⟩
  · intro w ht clipf
    rfl

/-- C7 witness: a single empty page. -/
theorem pdf_to_html_sections_witness :
    pdf_to_html (.ok ([page_empty], env_ok)) "t" 1 "auto" 2 false =
      .ok (html_shell (html_escape true "t") (section_html 10 20 1 [] [])) ∧
    render_pages env_ok [page_empty] 1 "auto" 2 false =
      .ok [section_html 10 20 1 [] []] := by
  have hsec := pdf_to_html_sections env_ok [page_empty] "t" 1 "auto" 2 false
    (html_shell (html_escape true "t") (section_html 10 20 1 [] [])) rfl
  exact ⟨rfl, rfl⟩

theorem render_image_extract_fallback (env : FitzEnv)
    (clipf : BBox → ℚ → Except Unit Pix) (meta : MetaRec) (image_mode : String)
    (scale clip_oversample : ℚ) (x0 y0 x1 y1 : ℚ)
    (hbb : meta.bbox = some (x0, y0, x1, y1))
    (hdeg : ¬ ((x1 - x0) * scale ≤ 0 ∨ (y1 - y0) * scale ≤ 0))
    (hmode : should_clip meta image_mode = false)
    (hext : pixmap_from_xref_safely env meta.xref meta.smask meta.mask = none) :
    render_image env clipf meta image_mode scale clip_oversample =
      match render_clip_px clipf (x0, y0, x1, y1) clip_oversample with
      | .error e => .error e
      | .ok pix => .ok (some (img_tag (png_dataurl env pix) (x0 * scale) (y0 * scale)
          ((x1 - x0) * scale) ((y1 - y0) * scale))) := by
  unfold render_image
  rw [hbb]
  dsimp only
  rw [if_neg hdeg, hmode]
  rw [if_neg (show ¬ (false = true) from by decide)]
  rw [hext]
  cases hc : render_clip_px clipf (x0, y0, x1, y1) clip_oversample with
  | error e => rfl
  | ok pix =>
    dsimp only
    rw [if_neg (png_dataurl_ne_empty env pix)]

theorem render_image_extract_ok (env : FitzEnv)
    (clipf : BBox → ℚ → Except Unit Pix) (meta : MetaRec) (image_mode : String)
    (scale clip_oversample : ℚ) (x0 y0 x1 y1 : ℚ) (pix : Pix)
    (hbb : meta.bbox = some (x0, y0, x1, y1))
    (hdeg : ¬ ((x1 - x0) * scale ≤ 0 ∨ (y1 - y0) * scale ≤ 0))
    (hmode : should_clip meta image_mode = false)
    (hext : pixmap_from_xref_safely env meta.xref meta.smask meta.mask = some pix) :
    render_image env clipf meta image_mode scale clip_oversample =
      .ok (some (img_tag (png_dataurl env pix) (x0 * scale) (y0 * scale)
        ((x1 - x0) * scale) ((y1 - y0) * scale))) := by
  unfold render_image
  rw [hbb]
  dsimp only
  rw [if_neg hdeg, hmode]
  rw [if_neg (show ¬ (false = true) from by decide)]
  rw [hext]
  dsimp only
  rw [if_neg (png_dataurl_ne_empty env pix)]

/-- C1 amended: for an image region whose extract path is chosen, when
extraction produces no usable bitmap the renderer runs the clip render of
the same region — the image is emitted whenever the clip succeeds (the
fallback); but when the clip render also fails (raises), the exception
propagates: the image loop of the page returns the error, wherever the
region sits in the loop, so rendering of the rest of the page does not
continue and the whole call aborts. -/
theorem render_image_fallback_and_abort (env : FitzEnv)
    (clipf : BBox → ℚ → Except Unit Pix) (meta : MetaRec) (image_mode : String)
    (scale clip_oversample : ℚ) (x0 y0 x1 y1 : ℚ) (pre post : List MetaRec)
    (hbb : meta.bbox = some (x0, y0, x1, y1))
    (hw : 0 < (x1 - x0) * scale) (hh : 0 < (y1 - y0) * scale)
    (hmode : should_clip meta image_mode = false)
    (hext : pixmap_from_xref_safely env meta.xref meta.smask meta.mask = none) :
    (render_image env clipf meta image_mode scale clip_oversample =
      match render_clip_px clipf (x0, y0, x1, y1) clip_oversample with
      | .error e => .error e
      | .ok pix => .ok (some (img_tag (png_dataurl env pix) (x0 * scale) (y0 * scale)
          ((x1 - x0) * scale) ((y1 - y0) * scale)))) ∧
    (render_image env clipf meta image_mode scale clip_oversample = .error () →
      render_images env clipf (pre ++ meta :: post) image_mode scale clip_oversample
        = .error ()) := by
  have hdeg : ¬ ((x1 - x0) * scale ≤ 0 ∨ (y1 - y0) * scale ≤ 0) := by
    rintro (hc | hc)
    · exact absurd hw (not_lt.mpr hc)
    · exact absurd hh (not_lt.mpr hc)
  refine ⟨render_image_extract_fallback env clipf meta image_mode scale clip_oversample
    x0 y0 x1 y1 hbb hdeg hmode hext, ?_⟩
  intro herr
  exact render_images_error_of_mem env clipf image_mode scale clip_oversample _ meta
    (List.mem_append_right pre (List.mem_cons_self meta post)) herr

/-- C1 witness: xref 1's extraction fails under `env_c1`; its clip render on
`(0,0,1,1)` also fails, and the loop `[meta_c1b] ++ [meta_c1a]` aborts. -/
theorem render_image_fallback_and_abort_witness :
    (render_image env_c1 clip_c1 meta_c1a "auto" 1 2 =
      match render_clip_px clip_c1 (0, 0, 1, 1) 2 with
      | .error e => .error e
      | .ok pix => .ok (some (img_tag (png_dataurl env_c1 pix) (0 * 1) (0 * 1)
          ((1 - 0) * 1) ((1 - 0) * 1)))) ∧
    (render_image env_c1 clip_c1 meta_c1a "auto" 1 2 = .error () →
      render_images env_c1 clip_c1 ([meta_c1b] ++ meta_c1a :: []) "auto" 1 2
        = .error ()) :=
  render_image_fallback_and_abort env_c1 clip_c1 meta_c1a "auto" 1 2 0 0 1 1
    [meta_c1b] [] rfl (by norm_num) (by norm_num) (by decide) (by decide)

/-- C1 counterexample: on `page_c1` the first image's extraction and clip
render both raise, and the whole `pdf_to_html` call aborts with the library
error — no HTML at all is produced, even though the page's second image
renders fine on its own.  This refutes "only that single image is dropped
while rendering of the rest of the page and document continues". -/
theorem render_clip_failure_aborts_cex :
    pdf_to_html (.ok ([page_c1], env_c1)) "doc" 1 "auto" 2 false = .error PyErr.fitz ∧
    render_image env_c1 page_c1.clip meta_c1b "auto" 1 2 =
      .ok (some (img_tag (png_dataurl env_c1 pixRGB) (2 * 1) (2 * 1) ((3 - 2) * 1)
        ((3 - 2) * 1))) := by
  have hdeg1 : ¬ (((1 : ℚ) - 0) * 1 ≤ 0 ∨ ((1 : ℚ) - 0) * 1 ≤ 0) := by norm_num
  have hch : render_clip_px page_c1.clip ((0 : ℚ), (0 : ℚ), (1 : ℚ), (1 : ℚ)) 2
      = .error () := by decide
  have h1 : render_image env_c1 page_c1.clip meta_c1a "auto" 1 2 = .error () := by
    rw [render_image_extract_fallback env_c1 page_c1.clip meta_c1a "auto" 1 2 0 0 1 1
      rfl hdeg1 (by decide) (by decide)]
    rw [hch]
  have h2 : render_images env_c1 page_c1.clip
      (xref_meta_list page_c1.imgs page_c1.infos page_c1.raws) "auto" 1 2
      = .error () := by
    rw [show xref_meta_list page_c1.imgs page_c1.infos page_c1.raws
      = [meta_c1a, meta_c1b] from by decide]
    simp only [render_images]
    rw [h1]
  have h3 : render_page_html env_c1 page_c1 1 "auto" 2 false = .error () := by
    unfold render_page_html
    dsimp only
    rw [h2]
  constructor
  · have h4 : render_pages env_c1 [page_c1] 1 "auto" 2 false = .error () := by
      simp only [render_pages]
      rw [h3]
    unfold pdf_to_html
    rw [if_pos (Or.inl rfl)]
    dsimp only
    rw [h4]
  · have hdeg2 : ¬ (((3 : ℚ) - 2) * 1 ≤ 0 ∨ ((3 : ℚ) - 2) * 1 ≤ 0) := by norm_num
    exact render_image_extract_ok env_c1 page_c1.clip meta_c1b "auto" 1 2 2 2 3 3 pixRGB
      rfl hdeg2 (by decide) (by decide)
